import Mathlib

/-!
# Verification of the pine-assistant chat engine (`src/pine_assistant/chat.py`)

This file is a shallow embedding of the session event listener of
`pine_assistant/chat.py` together with its stale-event filter, and proofs of
the behavioural properties claimed of it.

Modelling conventions:

* Python values that flow through untyped positions (`payload.data`,
  `raw.metadata`, dictionary entries) are embedded as the inductive `PVal`.
* The `S2CEvent` string-enumeration (its module is not part of the sources;
  per the specification it is an implementation-defined enumeration of
  distinct tags shared with the wire protocol) is embedded as the inductive
  `EvType`, with one constructor per member referenced by `chat.py` and its
  tests, plus `other` for arbitrary further inbound tags.
* Machine floats for the timeout durations are embedded as rationals; the
  durations are only ever selected and recorded, never computed with.
* The cooperative-concurrency execution of `_listen` is embedded as a
  deterministic interpreter over a `trace` of externally-scheduled stimuli:
  an inbound transport dispatch (which runs the observer callback
  synchronously) or an expiry of the pending `asyncio.wait_for`.  The
  consumer of the async generator is modelled as always ready, with an
  optional `budget` after which it abandons the sequence (throwing
  `GeneratorExit` / an error into the generator at the next yield point).
-/

namespace PineSpec

/-- Embedding of a dynamically-typed Python value as it can appear in the
`data` / `metadata` positions of an inbound envelope. -/
inductive PVal where
  | none
  | vBool (b : Bool)
  | vInt (n : Int)
  | vStr (s : String)
  | vDict (entries : List (String × PVal))

/-- Python dictionary lookup `d.get(k)`: the first binding of `k`, or `None`
when the key is absent. -/
def pyGet (entries : List (String × PVal)) (k : String) : PVal :=
  match entries with
  | [] => PVal.none
  | (k1, v) :: rest => if k1 = k then v else pyGet rest k

/-- Python truthiness of a `PVal` (`bool(v)`). -/
def truthy : PVal → Bool
  | PVal.none => false
  | PVal.vBool b => b
  | PVal.vInt n => n != 0
  | PVal.vStr s => s ≠ ""
  | PVal.vDict d => !d.isEmpty

/-- The event-type tags of the `S2CEvent` enumeration referenced by
`chat.py` and its tests (distinct members of a wire-protocol enumeration),
plus arbitrary further inbound tags. -/
inductive EvType where
  | SESSION_TEXT
  | SESSION_TEXT_PART
  | SESSION_FORM_TO_USER
  | SESSION_ASK_FOR_LOCATION
  | SESSION_TASK_READY
  | SESSION_TASK_FINISHED
  | SESSION_INTERACTIVE_AUTH_CONFIRMATION
  | SESSION_THREE_WAY_CALL
  | SESSION_REWARD
  | SESSION_INPUT_STATE
  | SESSION_STATE
  | SESSION_WORK_LOG
  | SESSION_WORK_LOG_PART
  | other (name : String)
  deriving DecidableEq

/-- The constant `TERMINAL_STATES` from `chat.py`. -/
def TERMINAL_STATES : List String := ["task_finished", "task_cancelled", "task_stale"]

/-- The constant `DEFAULT_IDLE_TIMEOUT_S` from `chat.py`. -/
def DEFAULT_IDLE_TIMEOUT_S : Rat := 120

/-- The constant `DEFAULT_RESPONSE_IDLE_TIMEOUT_S` from `chat.py`. -/
def DEFAULT_RESPONSE_IDLE_TIMEOUT_S : Rat := 2

/-- The constant `SUBSTANTIVE_EVENTS` from `chat.py`. -/
def SUBSTANTIVE_EVENTS : List EvType :=
  [EvType.SESSION_TEXT, EvType.SESSION_TEXT_PART,
   EvType.SESSION_FORM_TO_USER,
   EvType.SESSION_ASK_FOR_LOCATION, EvType.SESSION_TASK_READY,
   EvType.SESSION_TASK_FINISHED, EvType.SESSION_INTERACTIVE_AUTH_CONFIRMATION,
   EvType.SESSION_THREE_WAY_CALL, EvType.SESSION_REWARD]

/-- The `ChatEvent` class from `chat.py`. -/
structure ChatEvent where
  type : EvType
  session_id : String
  message_id : Option String
  data : PVal
  metadata : PVal

/-- The parts of an inbound raw envelope that the observer callback reads:
`payload.get("session_id")`, `payload.get("message_id")`,
`payload.get("data")` and `raw.get("metadata")`.  A missing `payload` key
yields the all-absent envelope, exactly as `raw.get("payload", {})` does. -/
structure Raw where
  payload_session_id : Option String
  payload_message_id : Option String
  payload_data : PVal
  metadata : PVal

/-- The guard `if p_session_id and p_session_id != session_id: return` of the
observer callback: discard iff the envelope session id is truthy (present and
non-empty) and differs from the requested one. -/
def sessionMismatch (session_id : String) (raw : Raw) : Bool :=
  match raw.payload_session_id with
  | some p => p ≠ "" && p ≠ session_id
  | none => false

/-- The `ChatEvent(...)` constructed by the observer callback for an accepted
envelope: its `session_id` is the requested session id, never the
envelope's. -/
def constructEvent (session_id : String) (event : EvType) (raw : Raw) : ChatEvent :=
  { type := event, session_id := session_id,
    message_id := raw.payload_message_id,
    data := raw.payload_data, metadata := raw.metadata }

/-- The reason the listen generator stopped (or `running` while it is still
inside its receive loop awaiting more input). -/
inductive ExitCause where
  /-- Still inside the receive loop, awaiting the next stimulus. -/
  | running
  /-- Returned from the pre-check with a synthesized terminal event. -/
  | precheckTerminal
  /-- Receive loop ended because `done` was set / the stop sentinel was
  dequeued (explicit terminal event or `waiting_input` after substance). -/
  | sentinel
  /-- Timeout of the dequeue after a substantive response: `break`. -/
  | idleExit
  /-- Idle-timeout re-poll of the session state reported a terminal state. -/
  | queryTerminal
  /-- The consumer abandoned the sequence (early return / error thrown into
  the generator at a yield point). -/
  | cancelled
  deriving DecidableEq

/-- The per-call listener state: the internal queue (`Option.none` is the
stop sentinel `queue.put_nowait(None)`), the `done` and
`received_agent_response` flags, the number of `check_session_state` calls
made so far, the events yielded to the consumer so far, the sequence of
timeout durations waited through, and the consumer's remaining appetite
(`Option.none` = consumes everything). -/
structure Acc where
  queue : List (Option ChatEvent)
  done : Bool
  received : Bool
  nCalls : Nat
  yielded : List (Option ChatEvent)
  waits : List Rat
  exit : ExitCause
  budget : Option Nat

/-- The observer callback `handler(event, raw)` of `_listen`, translated
line by line: discard foreign-session envelopes, enqueue the constructed
`ChatEvent`, mark a substantive response, and on a qualifying
`waiting_input` input-state or terminal session-state event set `done` and
enqueue the stop sentinel. -/
def handler (session_id : String) (event : EvType) (raw : Raw) (s : Acc) : Acc :=
  if sessionMismatch session_id raw then s
  else
    let s1 : Acc := { s with queue := s.queue ++ [some (constructEvent session_id event raw)] }
    let s2 : Acc := if SUBSTANTIVE_EVENTS.contains event then { s1 with received := true } else s1
    let s3 : Acc :=
      if event = EvType.SESSION_INPUT_STATE then
        match raw.payload_data with
        | PVal.vDict d =>
          match pyGet d "content" with
          | PVal.vStr c =>
            if c = "waiting_input" && s2.received then
              { s2 with done := true, queue := s2.queue ++ [Option.none] }
            else s2
          | _ => s2
        | _ => s2
      else s2
    if event = EvType.SESSION_STATE then
      match raw.payload_data with
      | PVal.vDict d =>
        match pyGet d "content" with
        | PVal.vStr c =>
          if TERMINAL_STATES.contains c then
            { s3 with done := true, queue := s3.queue ++ [Option.none] }
          else s3
        | _ => s3
      | _ => s3
    else s3

/-- The post-loop drain `while not queue.empty(): ... if evt is not None:
yield evt`, yielding the remaining queued events in order and skipping the
sentinel; a consumer abandoning mid-drain stops it (the thrown-in exception
propagates, skipping the rest of the drain). -/
def drainGo : List (Option ChatEvent) → Acc → Acc
  | [], s => { s with queue := [] }
  | Option.none :: rest, s => drainGo rest s
  | some e :: rest, s =>
    match s.budget with
    | some 0 => { s with exit := ExitCause.cancelled, queue := some e :: rest }
    | some (n + 1) => drainGo rest { s with yielded := s.yielded ++ [some e], budget := some n }
    | Option.none => drainGo rest { s with yielded := s.yielded ++ [some e] }

/-- The receive loop `while not done: evt = await wait_for(queue.get(), ...)`
run until the queue is exhausted (the generator then suspends awaiting the
next stimulus): a dequeued sentinel breaks to the drain, a dequeued event is
yielded, and the loop guard re-checks `done` before every dequeue. -/
def consumeGo : List (Option ChatEvent) → Acc → Acc
  | q, s =>
    if s.done then drainGo q { s with exit := ExitCause.sentinel }
    else
      match q with
      | [] => { s with queue := [] }
      | Option.none :: rest => drainGo rest { s with exit := ExitCause.sentinel }
      | some e :: rest =>
        match s.budget with
        | some 0 => { s with exit := ExitCause.cancelled, queue := some e :: rest }
        | some (n + 1) => consumeGo rest { s with yielded := s.yielded ++ [some e], budget := some n }
        | Option.none => consumeGo rest { s with yielded := s.yielded ++ [some e] }

/-- Run the receive loop over the current queue contents. -/
def consumeLoop (s : Acc) : Acc := consumeGo s.queue { s with queue := [] }

/-- The engine configuration: the optional out-of-band session-state query
collaborator (call index ↦ `session.get("state")`, or an exception) and the
two timeout durations. -/
structure Config where
  checkSessionState : Option (Nat → Except Unit (Option String))
  idle_timeout_s : Rat
  response_idle_timeout_s : Rat

/-- An externally-scheduled stimulus to the listen call: a transport dispatch
of an inbound raw event (running the observer callback synchronously), or
expiry of the pending `asyncio.wait_for` on an empty queue. -/
inductive Stimulus where
  | deliver (event : EvType) (raw : Raw)
  | timeout

/-- The synthesized `ChatEvent(type=SESSION_STATE, session_id=...,
data={"content": state})` yielded for an out-of-band terminal state. -/
def synthEvent (session_id : String) (state : String) : ChatEvent :=
  { type := EvType.SESSION_STATE, session_id := session_id,
    message_id := Option.none,
    data := PVal.vDict [("content", PVal.vStr state)], metadata := PVal.none }

/-- Process one stimulus of a listen call: a delivery runs the observer
callback then lets the consumer dequeue; a timeout records the waited
duration (idle or response-idle, by `received_agent_response`), breaks out
after a substantive response, re-polls the state collaborator when one is
configured (its failure swallowed, a terminal result yielding a synthesized
event and breaking out), and otherwise continues waiting.  After the
generator has exited, further stimuli are ignored. -/
def processStim (cfg : Config) (sid : String) (s : Acc) (stim : Stimulus) : Acc :=
  if s.exit ≠ ExitCause.running then s
  else
    match stim with
    | Stimulus.deliver ev raw => consumeLoop (handler sid ev raw s)
    | Stimulus.timeout =>
      let w := if s.received then cfg.response_idle_timeout_s else cfg.idle_timeout_s
      let s0 : Acc := { s with waits := s.waits ++ [w] }
      if s0.received then drainGo s0.queue { s0 with queue := [], exit := ExitCause.idleExit }
      else
        match cfg.checkSessionState with
        | Option.none => s0
        | some f =>
          match f s0.nCalls with
          | Except.error _ => { s0 with nCalls := s0.nCalls + 1 }
          | Except.ok stOpt =>
            let s1 : Acc := { s0 with nCalls := s0.nCalls + 1 }
            match stOpt with
            | some st =>
              if TERMINAL_STATES.contains st then
                match s1.budget with
                | some 0 => { s1 with exit := ExitCause.cancelled }
                | some (n + 1) =>
                  drainGo s1.queue
                    { s1 with yielded := s1.yielded ++ [some (synthEvent sid st)],
                              budget := some n, queue := [], exit := ExitCause.queryTerminal }
                | Option.none =>
                  drainGo s1.queue
                    { s1 with yielded := s1.yielded ++ [some (synthEvent sid st)],
                              queue := [], exit := ExitCause.queryTerminal }
              else s1
            | Option.none => s1

/-- Fold the listen call over a trace of stimuli. -/
def runTrace (cfg : Config) (sid : String) (s : Acc) : List Stimulus → Acc
  | [] => s
  | stim :: rest => runTrace cfg sid (processStim cfg sid s stim) rest

/-- The number of stimuli a run actually processes before the generator
exits (stimuli after the exit are not observed by the call). -/
def processedGo (cfg : Config) (sid : String) (s : Acc) : List Stimulus → Nat
  | [] => 0
  | stim :: rest =>
    if s.exit ≠ ExitCause.running then 0
    else processedGo cfg sid (processStim cfg sid s stim) rest + 1

/-- The externally observable outcome of a listen call: the yielded values,
the waited timeout durations, the exit cause, whether the inbound observer
was ever registered, how many times its removal handle was invoked, and the
final `received_agent_response` flag. -/
structure ListenResult where
  yielded : List (Option ChatEvent)
  waits : List Rat
  exit : ExitCause
  registered : Bool
  removedCount : Nat
  received : Bool

/-- The fresh listener state at loop entry. -/
def initAcc (budget : Option Nat) (nCalls0 : Nat) : Acc :=
  { queue := [], done := false, received := false, nCalls := nCalls0,
    yielded := [], waits := [], exit := ExitCause.running, budget := budget }

/-- Package the active phase: the observer was registered before the loop,
and the `finally: remove_handler()` runs exactly when the generator exits
(by any cause); while the loop is still pending nothing has been removed. -/
def finishActive (a : Acc) : ListenResult :=
  { yielded := a.yielded, waits := a.waits, exit := a.exit, registered := true,
    removedCount := if a.exit = ExitCause.running then 0 else 1,
    received := a.received }

/-- The active (observer-registered) phase of `_listen`, entered with
`nCalls0` state-query calls already consumed by the pre-check. -/
def listenActive (cfg : Config) (sid : String) (trace : List Stimulus)
    (budget : Option Nat) (nCalls0 : Nat) : ListenResult :=
  finishActive (runTrace cfg sid (initAcc budget nCalls0) trace)

/-- Outcome of the optional state pre-check: either `_listen` returned during
the pre-check (never registering the observer), or it proceeds to the active
phase with the given number of query calls consumed. -/
inductive Phase where
  | pre (r : ListenResult)
  | active (nCalls0 : Nat)

/-- The result of the pre-check path that yields one synthesized terminal
event and returns (observer never registered); a consumer abandoning at that
very first yield gets the empty sequence instead. -/
def precheckResult (sid : String) (st : String) (budget : Option Nat) : ListenResult :=
  if budget = some 0 then
    { yielded := [], waits := [], exit := ExitCause.cancelled,
      registered := false, removedCount := 0, received := false }
  else
    { yielded := [some (synthEvent sid st)], waits := [], exit := ExitCause.precheckTerminal,
      registered := false, removedCount := 0, received := false }

/-- The pre-check of `_listen`: skipped when requested or when no state-query
collaborator is configured; a query failure is swallowed (`except Exception:
pass`) and falls through to the active phase; a terminal reported state
returns immediately with one synthesized event. -/
def precheckPhase (cfg : Config) (sid : String) (skip : Bool) (budget : Option Nat) : Phase :=
  if skip then Phase.active 0
  else
    match cfg.checkSessionState with
    | Option.none => Phase.active 0
    | some f =>
      match f 0 with
      | Except.error _ => Phase.active 1
      | Except.ok stOpt =>
        match stOpt with
        | some st =>
          if TERMINAL_STATES.contains st then Phase.pre (precheckResult sid st budget)
          else Phase.active 1
        | Option.none => Phase.active 1

/-- The whole of `_listen(session_id, _skip_state_precheck)`: pre-check, then
the active receive loop over the stimulus trace. -/
def listen (cfg : Config) (sid : String) (skip : Bool) (trace : List Stimulus)
    (budget : Option Nat) : ListenResult :=
  match precheckPhase cfg sid skip budget with
  | Phase.pre r => r
  | Phase.active n0 => listenActive cfg sid trace budget n0

/-- How many stimuli of the trace the listen call actually processes. -/
def listenProcessed (cfg : Config) (sid : String) (skip : Bool) (trace : List Stimulus)
    (budget : Option Nat) : Nat :=
  match precheckPhase cfg sid skip budget with
  | Phase.pre _ => 0
  | Phase.active n0 => processedGo cfg sid (initAcc budget n0) trace

/-- The actual events of a yielded sequence (dropping the impossible
sentinel entries). -/
def realYielded (r : ListenResult) : List ChatEvent := r.yielded.filterMap id

/-- The events an accepted delivery trace constructs, in delivery order:
one `ChatEvent` per delivery that passes the session filter. -/
def keptDeliveries (sid : String) : List Stimulus → List ChatEvent
  | [] => []
  | Stimulus.deliver ev raw :: rest =>
    (if sessionMismatch sid raw then [] else [constructEvent sid ev raw]) ++ keptDeliveries sid rest
  | Stimulus.timeout :: rest => keptDeliveries sid rest

/-- A trace with the mismatched-session deliveries removed. -/
def dropMismatched (sid : String) (trace : List Stimulus) : List Stimulus :=
  trace.filter fun stim =>
    match stim with
    | Stimulus.deliver _ raw => !sessionMismatch sid raw
    | Stimulus.timeout => true

/-- The listener is well-formed while running: the internal queue has been
fully consumed and `done` is unset whenever the generator is suspended
awaiting the next stimulus. -/
def Ready (s : Acc) : Prop :=
  s.exit = ExitCause.running → (s.queue = [] ∧ s.done = false)

/-- Every value yielded so far is an actual event (never the stop sentinel)
carrying the requested session id. -/
def GoodYield (sid : String) (l : List (Option ChatEvent)) : Prop :=
  ∀ x ∈ l, ∃ e, x = some e ∧ e.session_id = sid

/-- Every event sitting in the queue carries the requested session id. -/
def GoodQueue (sid : String) (l : List (Option ChatEvent)) : Prop :=
  ∀ e : ChatEvent, some e ∈ l → e.session_id = sid

/-- The Python exceptions relevant to `_is_stale_event`: `fromisoformat`
raises `ValueError` on an unparseable string, comparing a naive datetime
with an aware one raises `TypeError` (both caught by the source), and
calling `.replace` on a non-string raises `AttributeError` (not caught). -/
inductive PyExc where
  | attributeError
  | typeError
  | valueError
  deriving DecidableEq

/-- A parsed `datetime`: microseconds on the proleptic-Gregorian timeline
since 1970-01-01T00:00:00 of its own clock face, and its UTC offset in
microseconds when it is timezone-aware. -/
structure PyDateTime where
  micros : Int
  offsetMicros : Option Int
  deriving DecidableEq

/-- Numeric value of a decimal digit character. -/
def digitVal (c : Char) : Nat := c.toNat - 48

/-- Read exactly `k` decimal digits into the accumulator. -/
def readDigitsAux (acc : Nat) : Nat → List Char → Option (Nat × List Char)
  | 0, cs => some (acc, cs)
  | _ + 1, [] => Option.none
  | k + 1, c :: cs =>
    if c.isDigit then readDigitsAux (acc * 10 + digitVal c) k cs else Option.none

/-- Read exactly `k` decimal digits as a number. -/
def readDigits (k : Nat) (cs : List Char) : Option (Nat × List Char) :=
  readDigitsAux 0 k cs

/-- Gregorian leap-year rule. -/
def isLeap (y : Nat) : Bool := (y % 4 = 0 && y % 100 ≠ 0) || y % 400 = 0

/-- Number of days in a month. -/
def daysInMonth (y m : Nat) : Nat :=
  if m = 2 then (if isLeap y then 29 else 28)
  else if m = 4 ∨ m = 6 ∨ m = 9 ∨ m = 11 then 30 else 31

/-- Days from 1970-01-01 to the given civil date (proleptic Gregorian),
via the standard era decomposition. -/
def daysFromCivil (y : Int) (m d : Nat) : Int :=
  let y1 : Int := if m ≤ 2 then y - 1 else y
  let era : Int := (if 0 ≤ y1 then y1 else y1 - 399) / 400
  let yoe : Int := y1 - era * 400
  let mp : Int := if 2 < m then (m : Int) - 3 else (m : Int) + 9
  let doy : Int := (153 * mp + 2) / 5 + (d : Int) - 1
  let doe : Int := yoe * 365 + yoe / 4 - yoe / 100 + doy
  era * 146097 + doe - 719468

/-- Parse a UTC offset tail `HH:MM` (after the sign character), requiring
the string to end there; the offset must be less than 24 hours.  Returns
the magnitude in microseconds. -/
def parseOffsetTail (cs : List Char) : Option Int := do
  let (hh, cs1) ← readDigits 2 cs
  match cs1 with
  | ':' :: cs2 => do
    let (mm, cs3) ← readDigits 2 cs2
    if mm ≤ 59 ∧ hh ≤ 23 ∧ cs3 = [] then
      some ((hh : Int) * 3600000000 + (mm : Int) * 60000000)
    else Option.none
  | _ => Option.none

/-- Parse the fractional-seconds digits (1 to 6 of them) into microseconds,
returning the remaining characters. -/
def parseFrac (cs : List Char) : Option (Nat × List Char) :=
  let ds := cs.takeWhile Char.isDigit
  let rest := cs.drop ds.length
  if 1 ≤ ds.length ∧ ds.length ≤ 6 then
    some ((ds.foldl (fun a c => a * 10 + digitVal c) 0) * 10 ^ (6 - ds.length), rest)
  else Option.none

/-- Parse an optional trailing UTC offset after the clock time; no further
characters may follow. -/
def parseOffsetOpt (cs : List Char) : Option (Option Int) :=
  match cs with
  | [] => some Option.none
  | '+' :: rest => do let off ← parseOffsetTail rest; some (some off)
  | '-' :: rest => do let off ← parseOffsetTail rest; some (some (-off))
  | _ => Option.none

/-- Parse the clock-time part `HH[:MM[:SS[.ffffff]]]` with an optional UTC
offset, as `datetime.fromisoformat` accepts after the date separator.
Returns microseconds into the day and the offset. -/
def parseTimePart (cs : List Char) : Option (Int × Option Int) := do
  let (hh, cs1) ← readDigits 2 cs
  if hh ≤ 23 then
    match cs1 with
    | ':' :: cs2 => do
      let (mm, cs3) ← readDigits 2 cs2
      if mm ≤ 59 then
        match cs3 with
        | ':' :: cs4 => do
          let (ss, cs5) ← readDigits 2 cs4
          if ss ≤ 59 then
            let base : Int := (hh : Int) * 3600000000 + (mm : Int) * 60000000 +
              (ss : Int) * 1000000
            match cs5 with
            | '.' :: cs6 => do
              let (frac, cs7) ← parseFrac cs6
              let off ← parseOffsetOpt cs7
              some (base + (frac : Int), off)
            | _ => do
              let off ← parseOffsetOpt cs5
              some (base, off)
          else Option.none
        | _ => do
          let off ← parseOffsetOpt cs3
          some ((hh : Int) * 3600000000 + (mm : Int) * 60000000, off)
      else Option.none
    | _ => do
      let off ← parseOffsetOpt cs1
      some ((hh : Int) * 3600000000, off)
  else Option.none

/-- Model of `datetime.fromisoformat` on the formats this client meets:
`YYYY-MM-DD`, optionally followed by a `T` or space separator and a clock
time `HH[:MM[:SS[.f{1,6}]]]`, optionally followed by a `+HH:MM` / `-HH:MM`
offset.  Returns `Option.none` where Python raises `ValueError`. -/
def fromisoformatChars (cs : List Char) : Option PyDateTime := do
  let (y, cs1) ← readDigits 4 cs
  if 1 ≤ y then
    match cs1 with
    | '-' :: cs2 => do
      let (m, cs3) ← readDigits 2 cs2
      if 1 ≤ m ∧ m ≤ 12 then
        match cs3 with
        | '-' :: cs4 => do
          let (d, cs5) ← readDigits 2 cs4
          if 1 ≤ d ∧ d ≤ daysInMonth y m then
            let dayMicros : Int := daysFromCivil (y : Int) m d * 86400000000
            match cs5 with
            | [] => some { micros := dayMicros, offsetMicros := Option.none }
            | sep :: cs6 =>
              if sep = 'T' ∨ sep = ' ' then do
                let (tod, off) ← parseTimePart cs6
                some { micros := dayMicros + tod, offsetMicros := off }
              else Option.none
          else Option.none
        | _ => Option.none
      else Option.none
    | _ => Option.none
  else Option.none

/-- Model of `datetime.fromisoformat` on strings. -/
def fromisoformat (s : String) : Option PyDateTime :=
  fromisoformatChars s.toList

/-- Comparison `event_ts < cutoff` of a parsed timestamp against the aware
cutoff instant (microseconds since epoch, UTC): defined only when the
parsed timestamp is aware; on a naive timestamp Python raises `TypeError`. -/
def ltAware (dt : PyDateTime) (cutoff : Int) : Option Bool :=
  match dt.offsetMicros with
  | Option.none => Option.none
  | some off => some (decide (dt.micros - off < cutoff))

/-- The static method `ChatEngine._is_stale_event(event, cutoff)`, with the
`cutoff` an aware instant (microseconds since epoch, UTC): non-dict
metadata and falsy timestamp values pass (not stale); a truthy string
timestamp has `"Z"` replaced by `"+00:00"` and is parsed, where a parse
failure (`ValueError`) or a naive-vs-aware comparison (`TypeError`) is
caught and treated as not stale; a truthy non-string timestamp raises
`AttributeError` from `ts_str.replace`, which the `except (ValueError,
TypeError)` clause does not catch. -/
def is_stale_event (event : ChatEvent) (cutoff : Int) : Except PyExc Bool :=
  match event.metadata with
  | PVal.vDict entries =>
    let ts := pyGet entries "timestamp"
    if truthy ts then
      match ts with
      | PVal.vStr s =>
        match fromisoformat (s.replace "Z" "+00:00") with
        | Option.none => Except.ok false
        | some dt =>
          match ltAware dt cutoff with
          | Option.none => Except.ok false
          | some b => Except.ok b
      | _ => Except.error PyExc.attributeError
    else Except.ok false
  | _ => Except.ok false

/-- The stale filter applied by `chat` to the listened events in order;
an uncaught exception from `_is_stale_event` aborts the iteration. -/
def filterFresh (cutoff : Int) : List ChatEvent → Except PyExc (List ChatEvent)
  | [] => Except.ok []
  | e :: rest =>
    match is_stale_event e cutoff with
    | Except.error ex => Except.error ex
    | Except.ok true => filterFresh cutoff rest
    | Except.ok false =>
      match filterFresh cutoff rest with
      | Except.error ex => Except.error ex
      | Except.ok l => Except.ok (e :: l)

/-- The event sequence produced by `chat(session_id, content)`: listen with
the pre-check skipped, dropping events staler than the cutoff computed at
send time. -/
def chatEvents (cfg : Config) (sid : String) (trace : List Stimulus)
    (budget : Option Nat) (cutoff : Int) : Except PyExc (List ChatEvent) :=
  filterFresh cutoff (realYielded (listen cfg sid true trace budget))

/-- Whether an envelope's payload carries `{"content": "waiting_input"}` as a
dictionary, the trigger condition read by the input-state branch. -/
def waitingInputRaw (raw : Raw) : Bool :=
  match raw.payload_data with
  | PVal.vDict d =>
    match pyGet d "content" with
    | PVal.vStr c => c = "waiting_input"
    | _ => false
  | _ => false

/-- Whether an envelope's payload carries a terminal state string as its
dictionary content, the trigger condition read by the session-state branch. -/
def terminalStateRaw (raw : Raw) : Bool :=
  match raw.payload_data with
  | PVal.vDict d =>
    match pyGet d "content" with
    | PVal.vStr c => TERMINAL_STATES.contains c
    | _ => false
  | _ => false

/-- The combined condition under which the observer callback sets `done` and
enqueues the stop sentinel, given the `received_agent_response` flag it
observes. -/
def handlerStop (received : Bool) (event : EvType) (raw : Raw) : Bool :=
  (event = EvType.SESSION_INPUT_STATE && waitingInputRaw raw && received) ||
  (event = EvType.SESSION_STATE && terminalStateRaw raw)

/-- One step of the receive loop as observed from a quiescent running state
(queue drained, `done` unset, consumer not abandoning): the closed form that
`processStim` provably takes there.  A delivery either is discarded or
yields its constructed event immediately, stopping when the stop condition
holds; a timeout either ends the turn (after substance), re-polls the
state collaborator, or just keeps waiting. -/
def stepRun (cfg : Config) (sid : String) (s : Acc) : Stimulus → Acc
  | Stimulus.deliver ev raw =>
    if sessionMismatch sid raw then s
    else
      { s with
        yielded := s.yielded ++ [some (constructEvent sid ev raw)],
        received := s.received || SUBSTANTIVE_EVENTS.contains ev,
        done := handlerStop s.received ev raw,
        exit := (if handlerStop s.received ev raw then ExitCause.sentinel
                 else ExitCause.running) }
  | Stimulus.timeout =>
    if s.received then
      { s with waits := s.waits ++ [cfg.response_idle_timeout_s], exit := ExitCause.idleExit }
    else
      match cfg.checkSessionState with
      | Option.none => { s with waits := s.waits ++ [cfg.idle_timeout_s] }
      | some f =>
        match f s.nCalls with
        | Except.error _ =>
          { s with waits := s.waits ++ [cfg.idle_timeout_s], nCalls := s.nCalls + 1 }
        | Except.ok stOpt =>
          match stOpt with
          | some st =>
            if TERMINAL_STATES.contains st then
              { s with
                waits := s.waits ++ [cfg.idle_timeout_s], nCalls := s.nCalls + 1,
                yielded := s.yielded ++ [some (synthEvent sid st)],
                exit := ExitCause.queryTerminal }
            else { s with waits := s.waits ++ [cfg.idle_timeout_s], nCalls := s.nCalls + 1 }
          | Option.none =>
            { s with waits := s.waits ++ [cfg.idle_timeout_s], nCalls := s.nCalls + 1 }

/-- A configuration with no session-state collaborator, a 5 s idle timeout
and a 2 s response-idle timeout (the no-traffic scenario). -/
def cfgNone : Config := ⟨Option.none, 5, 2⟩

/-- A configuration whose state query always reports `task_finished`. -/
def cfgTerm : Config := ⟨some (fun _ => Except.ok (some "task_finished")), 120, 2⟩

/-- A configuration whose state query always fails. -/
def cfgErr : Config := ⟨some (fun _ => Except.error ()), 120, 2⟩

/-- An inbound text envelope for the given session. -/
def rawText (sid : String) : Raw :=
  ⟨some sid, Option.none, PVal.vDict [("content", PVal.vStr "hi")], PVal.none⟩

/-- An inbound terminal session-state envelope for the given session. -/
def rawTerminal (sid : String) : Raw :=
  ⟨some sid, Option.none, PVal.vDict [("content", PVal.vStr "task_finished")], PVal.none⟩

/-- An inbound `waiting_input` input-state envelope for the given session. -/
def rawWaiting (sid : String) : Raw :=
  ⟨some sid, Option.none, PVal.vDict [("content", PVal.vStr "waiting_input")], PVal.none⟩

/-- An inbound envelope whose `payload.session_id` is the empty string:
present and different from any non-empty requested session id, yet falsy in
Python and therefore not discarded by the observer's guard. -/
def rawEmptySid : Raw := ⟨some "", Option.none, PVal.none, PVal.none⟩

/-- A chat event whose metadata carries the integer `123` under
`"timestamp"`: truthy but not a string. -/
def staleIntEvent : ChatEvent :=
  ⟨EvType.SESSION_TEXT, "s1", Option.none, PVal.none,
   PVal.vDict [("timestamp", PVal.vInt 123)]⟩

theorem substantive_input_state_false :
    SUBSTANTIVE_EVENTS.contains EvType.SESSION_INPUT_STATE = false := by decide

/-- Closed form of the observer callback: a mismatched envelope leaves the
state untouched; otherwise the constructed event is enqueued, the
substantive flag is or-ed in, and on the stop condition `done` is set and
the sentinel enqueued. -/
theorem handler_eq (sid : String) (ev : EvType) (raw : Raw) (s : Acc) :
    handler sid ev raw s =
      if sessionMismatch sid raw then s
      else
        { s with
          queue := s.queue ++ [some (constructEvent sid ev raw)] ++
            (if handlerStop s.received ev raw then [Option.none] else []),
          received := s.received || SUBSTANTIVE_EVENTS.contains ev,
          done := s.done || handlerStop s.received ev raw } := by
  by_cases hm : sessionMismatch sid raw
  · simp [handler, hm]
  · by_cases hin : ev = EvType.SESSION_INPUT_STATE
    · subst hin
      cases hd : raw.payload_data with
      | none => simp [handler, hm, handlerStop, waitingInputRaw, SUBSTANTIVE_EVENTS, hd]
      | vBool b => simp [handler, hm, handlerStop, waitingInputRaw, SUBSTANTIVE_EVENTS, hd]
      | vInt n => simp [handler, hm, handlerStop, waitingInputRaw, SUBSTANTIVE_EVENTS, hd]
      | vStr str => simp [handler, hm, handlerStop, waitingInputRaw, SUBSTANTIVE_EVENTS, hd]
      | vDict d =>
        cases hc : pyGet d "content" with
        | none => simp [handler, hm, handlerStop, waitingInputRaw, SUBSTANTIVE_EVENTS, hd, hc]
        | vBool b => simp [handler, hm, handlerStop, waitingInputRaw, SUBSTANTIVE_EVENTS, hd, hc]
        | vInt n => simp [handler, hm, handlerStop, waitingInputRaw, SUBSTANTIVE_EVENTS, hd, hc]
        | vDict d2 => simp [handler, hm, handlerStop, waitingInputRaw, SUBSTANTIVE_EVENTS, hd, hc]
        | vStr c =>
          by_cases hw : c = "waiting_input"
          · by_cases hr : s.received = true <;>
              simp [handler, hm, handlerStop, waitingInputRaw, SUBSTANTIVE_EVENTS, hd, hc, hw, hr]
          · simp [handler, hm, handlerStop, waitingInputRaw, SUBSTANTIVE_EVENTS, hd, hc, hw]
    · by_cases hstv : ev = EvType.SESSION_STATE
      · subst hstv
        cases hd : raw.payload_data with
        | none => simp [handler, hm, handlerStop, terminalStateRaw, SUBSTANTIVE_EVENTS, hd]
        | vBool b => simp [handler, hm, handlerStop, terminalStateRaw, SUBSTANTIVE_EVENTS, hd]
        | vInt n => simp [handler, hm, handlerStop, terminalStateRaw, SUBSTANTIVE_EVENTS, hd]
        | vStr str => simp [handler, hm, handlerStop, terminalStateRaw, SUBSTANTIVE_EVENTS, hd]
        | vDict d =>
          cases hc : pyGet d "content" with
          | none => simp [handler, hm, handlerStop, terminalStateRaw, SUBSTANTIVE_EVENTS, hd, hc]
          | vBool b => simp [handler, hm, handlerStop, terminalStateRaw, SUBSTANTIVE_EVENTS, hd, hc]
          | vInt n => simp [handler, hm, handlerStop, terminalStateRaw, SUBSTANTIVE_EVENTS, hd, hc]
          | vDict d2 => simp [handler, hm, handlerStop, terminalStateRaw, SUBSTANTIVE_EVENTS, hd, hc]
          | vStr c =>
            by_cases ht : c ∈ TERMINAL_STATES <;>
              simp [handler, hm, handlerStop, terminalStateRaw, SUBSTANTIVE_EVENTS, hd, hc, ht]
      · by_cases hsub : ev ∈ SUBSTANTIVE_EVENTS <;>
          simp [handler, hm, handlerStop, hin, hstv, hsub]

theorem drainGo_none (q : List (Option ChatEvent)) (s : Acc) (hb : s.budget = Option.none) :
    drainGo q s = { s with queue := [], yielded := s.yielded ++ (q.filterMap id).map some } := by
  induction q generalizing s with
  | nil => simp [drainGo]
  | cons x rest ih =>
    cases x with
    | none =>
      rw [drainGo, ih s hb]
      simp
    | some e =>
      simp only [drainGo, hb]
      rw [ih _ rfl]
      simp

theorem consumeGo_none (q : List (Option ChatEvent)) (s : Acc) (hb : s.budget = Option.none) :
    consumeGo q s =
      { s with
        queue := [],
        yielded := s.yielded ++ (q.filterMap id).map some,
        exit := (if s.done || q.any Option.isNone then ExitCause.sentinel else s.exit) } := by
  induction q generalizing s with
  | nil =>
    by_cases hdn : s.done = true
    · rw [consumeGo, if_pos hdn,
        drainGo_none [] { s with exit := ExitCause.sentinel } hb]
      simp [hdn]
    · simp at hdn
      rw [consumeGo, if_neg (by simp [hdn])]
      simp [hdn]
  | cons x rest ih =>
    cases x with
    | none =>
      by_cases hdn : s.done = true
      · rw [consumeGo, if_pos hdn,
          drainGo_none (Option.none :: rest) { s with exit := ExitCause.sentinel } hb]
        simp [hdn]
      · simp at hdn
        rw [consumeGo, if_neg (by simp [hdn]),
          drainGo_none rest { s with exit := ExitCause.sentinel } hb]
        simp [hdn]
    | some e =>
      by_cases hdn : s.done = true
      · rw [consumeGo, if_pos hdn,
          drainGo_none (some e :: rest) { s with exit := ExitCause.sentinel } hb]
        simp [hdn]
      · simp at hdn
        rw [consumeGo, if_neg (by simp [hdn])]
        simp only [hb]
        rw [ih { s with yielded := s.yielded ++ [some e], budget := Option.none } rfl]
        by_cases hany : rest.any Option.isNone <;>
          simp [hdn, hany, List.append_assoc]

theorem processStim_frozen (cfg : Config) (sid : String) (s : Acc) (stim : Stimulus)
    (h : s.exit ≠ ExitCause.running) : processStim cfg sid s stim = s := by
  simp [processStim, h]

theorem runTrace_frozen (cfg : Config) (sid : String) (s : Acc) (t : List Stimulus)
    (h : s.exit ≠ ExitCause.running) : runTrace cfg sid s t = s := by
  induction t with
  | nil => rfl
  | cons stim rest ih => rw [runTrace, processStim_frozen cfg sid s stim h, ih]

theorem runTrace_append (cfg : Config) (sid : String) (s : Acc) (t1 t2 : List Stimulus) :
    runTrace cfg sid s (t1 ++ t2) = runTrace cfg sid (runTrace cfg sid s t1) t2 := by
  induction t1 generalizing s with
  | nil => rfl
  | cons stim rest ih => rw [List.cons_append, runTrace, runTrace, ih]

theorem drainGo_running (q : List (Option ChatEvent)) (s : Acc)
    (h : (drainGo q s).exit = ExitCause.running) :
    (drainGo q s).queue = [] ∧ (drainGo q s).done = s.done ∧ s.exit = ExitCause.running := by
  induction q generalizing s with
  | nil =>
    rw [drainGo] at h ⊢
    exact ⟨rfl, rfl, h⟩
  | cons x rest ih =>
    cases x with
    | none =>
      rw [drainGo] at h ⊢
      exact ih s h
    | some e =>
      rw [drainGo] at h ⊢
      cases hbq : s.budget with
      | none =>
        simp only [hbq] at h ⊢
        exact ih _ h
      | some n =>
        cases n with
        | zero =>
          simp only [hbq] at h
          simp at h
        | succ m =>
          simp only [hbq] at h ⊢
          exact ih _ h

theorem consumeGo_running (q : List (Option ChatEvent)) (s : Acc)
    (h : (consumeGo q s).exit = ExitCause.running) :
    (consumeGo q s).queue = [] ∧ (consumeGo q s).done = false ∧ s.exit = ExitCause.running := by
  induction q generalizing s with
  | nil =>
    rw [consumeGo] at h ⊢
    by_cases hdn : s.done = true
    · rw [if_pos hdn] at h
      have h3 := (drainGo_running _ _ h).2.2
      simp at h3
    · simp at hdn
      rw [if_neg (by simp [hdn])] at h ⊢
      exact ⟨rfl, hdn, h⟩
  | cons x rest ih =>
    cases x with
    | none =>
      rw [consumeGo] at h ⊢
      by_cases hdn : s.done = true
      · rw [if_pos hdn] at h
        have h3 := (drainGo_running _ _ h).2.2
        simp at h3
      · simp at hdn
        rw [if_neg (by simp [hdn])] at h
        have h3 := (drainGo_running _ _ h).2.2
        simp at h3
    | some e =>
      rw [consumeGo] at h ⊢
      by_cases hdn : s.done = true
      · rw [if_pos hdn] at h
        have h3 := (drainGo_running _ _ h).2.2
        simp at h3
      · simp at hdn
        rw [if_neg (by simp [hdn])] at h ⊢
        cases hbq : s.budget with
        | none =>
          simp only [hbq] at h ⊢
          exact ih _ h
        | some n =>
          cases n with
          | zero =>
            simp only [hbq] at h
            simp at h
          | succ m =>
            simp only [hbq] at h ⊢
            exact ih _ h

theorem handler_budget (sid : String) (ev : EvType) (raw : Raw) (s : Acc) :
    (handler sid ev raw s).budget = s.budget := by
  rw [handler_eq]
  by_cases hm : sessionMismatch sid raw <;> simp [hm]

theorem processStim_ready (cfg : Config) (sid : String) (s : Acc) (stim : Stimulus)
    (hs : Ready s) : Ready (processStim cfg sid s stim) := by
  by_cases hex : s.exit = ExitCause.running
  · cases stim with
    | deliver ev raw =>
      have hP : processStim cfg sid s (Stimulus.deliver ev raw)
          = consumeGo (handler sid ev raw s).queue { handler sid ev raw s with queue := [] } := by
        simp [processStim, hex, consumeLoop]
      rw [hP]
      intro hrun
      have h := consumeGo_running _ _ hrun
      exact ⟨h.1, h.2.1⟩
    | timeout =>
      obtain ⟨hq, hd⟩ := hs hex
      by_cases hr : s.received = true
      · have hP : processStim cfg sid s Stimulus.timeout
            = drainGo s.queue
              { s with
                waits := s.waits ++ [cfg.response_idle_timeout_s],
                queue := [], exit := ExitCause.idleExit } := by
          simp [processStim, hex, hr]
        rw [hP]
        intro hrun
        have h3 := (drainGo_running _ _ hrun).2.2
        simp at h3
      · simp at hr
        cases hchk : cfg.checkSessionState with
        | none =>
          have hP : processStim cfg sid s Stimulus.timeout
              = { s with waits := s.waits ++ [cfg.idle_timeout_s] } := by
            simp [processStim, hex, hr, hchk]
          rw [hP]
          intro hrun
          exact ⟨hq, hd⟩
        | some f =>
          cases hf : f s.nCalls with
          | error e =>
            have hP : processStim cfg sid s Stimulus.timeout
                = { s with
                    waits := s.waits ++ [cfg.idle_timeout_s],
                    nCalls := s.nCalls + 1 } := by
              simp [processStim, hex, hr, hchk, hf]
            rw [hP]
            intro hrun
            exact ⟨hq, hd⟩
          | ok stOpt =>
            cases stOpt with
            | none =>
              have hP : processStim cfg sid s Stimulus.timeout
                  = { s with
                      waits := s.waits ++ [cfg.idle_timeout_s],
                      nCalls := s.nCalls + 1 } := by
                simp [processStim, hex, hr, hchk, hf]
              rw [hP]
              intro hrun
              exact ⟨hq, hd⟩
            | some st =>
              by_cases ht : st ∈ TERMINAL_STATES
              · cases hbq : s.budget with
                | none =>
                  have hP : processStim cfg sid s Stimulus.timeout
                      = drainGo s.queue
                        { s with
                          waits := s.waits ++ [cfg.idle_timeout_s],
                          nCalls := s.nCalls + 1,
                          yielded := s.yielded ++ [some (synthEvent sid st)],
                          queue := [], exit := ExitCause.queryTerminal } := by
                    simp [processStim, hex, hr, hchk, hf, ht, hbq]
                  rw [hP]
                  intro hrun
                  have h3 := (drainGo_running _ _ hrun).2.2
                  simp at h3
                | some n =>
                  cases n with
                  | zero =>
                    have hP : processStim cfg sid s Stimulus.timeout
                        = { s with
                            waits := s.waits ++ [cfg.idle_timeout_s],
                            nCalls := s.nCalls + 1, exit := ExitCause.cancelled } := by
                      simp [processStim, hex, hr, hchk, hf, ht, hbq]
                    rw [hP]
                    intro hrun
                    simp at hrun
                  | succ m =>
                    have hP : processStim cfg sid s Stimulus.timeout
                        = drainGo s.queue
                          { s with
                            waits := s.waits ++ [cfg.idle_timeout_s],
                            nCalls := s.nCalls + 1,
                            yielded := s.yielded ++ [some (synthEvent sid st)],
                            budget := some m, queue := [], exit := ExitCause.queryTerminal } := by
                      simp [processStim, hex, hr, hchk, hf, ht, hbq]
                    rw [hP]
                    intro hrun
                    have h3 := (drainGo_running _ _ hrun).2.2
                    simp at h3
              · have hP : processStim cfg sid s Stimulus.timeout
                    = { s with
                        waits := s.waits ++ [cfg.idle_timeout_s],
                        nCalls := s.nCalls + 1 } := by
                  simp [processStim, hex, hr, hchk, hf, ht]
                rw [hP]
                intro hrun
                exact ⟨hq, hd⟩
  · rw [processStim_frozen cfg sid s stim hex]
    exact hs

theorem runTrace_ready (cfg : Config) (sid : String) (s : Acc) (t : List Stimulus)
    (hs : Ready s) : Ready (runTrace cfg sid s t) := by
  induction t generalizing s with
  | nil => exact hs
  | cons stim rest ih => exact ih _ (processStim_ready cfg sid s stim hs)

theorem initAcc_ready (budget : Option Nat) (n0 : Nat) : Ready (initAcc budget n0) := by
  intro h
  exact ⟨rfl, rfl⟩

theorem processStim_run_none (cfg : Config) (sid : String) (s : Acc) (stim : Stimulus)
    (hex : s.exit = ExitCause.running) (hq : s.queue = []) (hd : s.done = false)
    (hb : s.budget = Option.none) :
    processStim cfg sid s stim = stepRun cfg sid s stim := by
  cases stim with
  | deliver ev raw =>
    by_cases hm : sessionMismatch sid raw
    · have h1 : handler sid ev raw s = s := by rw [handler_eq, if_pos hm]
      have h2 : processStim cfg sid s (Stimulus.deliver ev raw)
          = consumeGo s.queue { s with queue := [] } := by
        simp [processStim, hex, h1, consumeLoop]
      rw [h2, hq, consumeGo, if_neg (by simp [hd])]
      simp [stepRun, hm]
      rw [← hq]
    · have h2 : processStim cfg sid s (Stimulus.deliver ev raw)
          = consumeGo (handler sid ev raw s).queue { handler sid ev raw s with queue := [] } := by
        simp [processStim, hex, consumeLoop]
      rw [h2, handler_eq, if_neg hm, consumeGo_none]
      · by_cases hstop : handlerStop s.received ev raw = true <;>
          simp [stepRun, hm, hstop, hq, hd, hex]
      · simp [hb]
  | timeout =>
    by_cases hr : s.received = true
    · have hP : processStim cfg sid s Stimulus.timeout
          = drainGo s.queue
            { s with
              waits := s.waits ++ [cfg.response_idle_timeout_s],
              queue := [], exit := ExitCause.idleExit } := by
        simp [processStim, hex, hr]
      rw [hP, hq, drainGo]
      simp [stepRun, hr, hq]
    · simp at hr
      cases hchk : cfg.checkSessionState with
      | none =>
        have hP : processStim cfg sid s Stimulus.timeout
            = { s with waits := s.waits ++ [cfg.idle_timeout_s] } := by
          simp [processStim, hex, hr, hchk]
        rw [hP]
        simp [stepRun, hr, hchk]
      | some f =>
        cases hf : f s.nCalls with
        | error e =>
          have hP : processStim cfg sid s Stimulus.timeout
              = { s with
                  waits := s.waits ++ [cfg.idle_timeout_s],
                  nCalls := s.nCalls + 1 } := by
            simp [processStim, hex, hr, hchk, hf]
          rw [hP]
          simp [stepRun, hr, hchk, hf]
        | ok stOpt =>
          cases stOpt with
          | none =>
            have hP : processStim cfg sid s Stimulus.timeout
                = { s with
                    waits := s.waits ++ [cfg.idle_timeout_s],
                    nCalls := s.nCalls + 1 } := by
              simp [processStim, hex, hr, hchk, hf]
            rw [hP]
            simp [stepRun, hr, hchk, hf]
          | some st =>
            by_cases ht : st ∈ TERMINAL_STATES
            · have hP : processStim cfg sid s Stimulus.timeout
                  = drainGo s.queue
                    { s with
                      waits := s.waits ++ [cfg.idle_timeout_s],
                      nCalls := s.nCalls + 1,
                      yielded := s.yielded ++ [some (synthEvent sid st)],
                      queue := [], exit := ExitCause.queryTerminal } := by
                simp [processStim, hex, hr, hchk, hf, ht, hb]
              rw [hP, hq, drainGo]
              simp [stepRun, hr, hchk, hf, ht, hq]
            · have hP : processStim cfg sid s Stimulus.timeout
                  = { s with
                      waits := s.waits ++ [cfg.idle_timeout_s],
                      nCalls := s.nCalls + 1 } := by
                simp [processStim, hex, hr, hchk, hf, ht]
              rw [hP]
              simp [stepRun, hr, hchk, hf, ht]

theorem stepRun_budget (cfg : Config) (sid : String) (s : Acc) (stim : Stimulus) :
    (stepRun cfg sid s stim).budget = s.budget := by
  cases stim with
  | deliver ev raw => by_cases hm : sessionMismatch sid raw <;> simp [stepRun, hm]
  | timeout =>
    by_cases hr : s.received = true
    · simp [stepRun, hr]
    · simp at hr
      cases hchk : cfg.checkSessionState with
      | none => simp [stepRun, hr, hchk]
      | some f =>
        cases hf : f s.nCalls with
        | error e => simp [stepRun, hr, hchk, hf]
        | ok stOpt =>
          cases stOpt with
          | none => simp [stepRun, hr, hchk, hf]
          | some st =>
            by_cases ht : st ∈ TERMINAL_STATES <;> simp [stepRun, hr, hchk, hf, ht]

/-- Structure of a full run from a quiescent state with a fully-consuming
consumer: the yields extend by exactly the kept deliveries of the processed
trace prefix, in order, plus at most a trailing synthesized terminal event
from the state re-poll (impossible when no collaborator is configured). -/
theorem runTrace_structure (cfg : Config) (sid : String) (t : List Stimulus) :
    ∀ s : Acc, Ready s → s.budget = Option.none →
      ∃ tail,
        (runTrace cfg sid s t).yielded
          = s.yielded ++ (keptDeliveries sid (t.take (processedGo cfg sid s t))).map some ++ tail
        ∧ (cfg.checkSessionState = Option.none → tail = []) := by
  induction t with
  | nil =>
    intro s hR hb
    exact ⟨[], by simp [runTrace, processedGo, keptDeliveries], fun _ => rfl⟩
  | cons stim rest ih =>
    intro s hR hb
    by_cases hex : s.exit = ExitCause.running
    · obtain ⟨hq, hd⟩ := hR hex
      have hstep := processStim_run_none cfg sid s stim hex hq hd hb
      have hRs : Ready (processStim cfg sid s stim) := processStim_ready cfg sid s stim hR
      have hbs : (processStim cfg sid s stim).budget = Option.none := by
        rw [hstep, stepRun_budget]
        exact hb
      have hpg : processedGo cfg sid s (stim :: rest)
          = processedGo cfg sid (processStim cfg sid s stim) rest + 1 := by
        simp [processedGo, hex]
      rw [runTrace, hpg]
      cases stim with
      | deliver ev raw =>
        by_cases hm : sessionMismatch sid raw
        · have hid : processStim cfg sid s (Stimulus.deliver ev raw) = s := by
            rw [hstep]
            simp [stepRun, hm]
          rw [hid]
          obtain ⟨tail, h1, h2⟩ := ih s hR hb
          refine ⟨tail, ?_, h2⟩
          rw [h1, List.take_succ_cons, keptDeliveries]
          simp [hm]
        · have hsr : processStim cfg sid s (Stimulus.deliver ev raw)
              = { s with
                  yielded := s.yielded ++ [some (constructEvent sid ev raw)],
                  received := s.received || SUBSTANTIVE_EVENTS.contains ev,
                  done := handlerStop s.received ev raw,
                  exit := (if handlerStop s.received ev raw then ExitCause.sentinel
                           else ExitCause.running) } := by
            rw [hstep]
            simp [stepRun, hm]
          by_cases hstop : handlerStop s.received ev raw = true
          · rw [hsr] at hRs hbs ⊢
            rw [hstop] at hRs hbs ⊢
            simp only [if_true] at hRs hbs ⊢
            rw [runTrace_frozen cfg sid _ rest (by simp)]
            have hpz : processedGo cfg sid
                ({ s with
                   yielded := s.yielded ++ [some (constructEvent sid ev raw)],
                   received := s.received || SUBSTANTIVE_EVENTS.contains ev,
                   done := true, exit := ExitCause.sentinel } : Acc) rest = 0 := by
              cases rest with
              | nil => rfl
              | cons a b => simp [processedGo]
            rw [hpz, List.take_succ_cons, keptDeliveries]
            refine ⟨[], ?_, fun _ => rfl⟩
            simp [hm, keptDeliveries]
          · simp at hstop
            rw [hsr] at hRs hbs ⊢
            rw [hstop] at hRs hbs ⊢
            simp only [if_false, Bool.false_eq_true] at hRs hbs ⊢
            obtain ⟨tail, h1, h2⟩ := ih _ hRs hbs
            refine ⟨tail, ?_, h2⟩
            rw [h1, List.take_succ_cons, keptDeliveries]
            simp [hm]
      | timeout =>
        by_cases hr : s.received = true
        · have hsr : processStim cfg sid s Stimulus.timeout
              = { s with
                  waits := s.waits ++ [cfg.response_idle_timeout_s],
                  exit := ExitCause.idleExit } := by
            rw [hstep]
            simp [stepRun, hr]
          rw [hsr]
          rw [runTrace_frozen cfg sid _ rest (by simp)]
          have hpz : processedGo cfg sid
              ({ s with
                 waits := s.waits ++ [cfg.response_idle_timeout_s],
                 exit := ExitCause.idleExit } : Acc) rest = 0 := by
            cases rest with
            | nil => rfl
            | cons a b => simp [processedGo]
          rw [hpz, List.take_succ_cons, keptDeliveries]
          exact ⟨[], by simp [keptDeliveries], fun _ => rfl⟩
        · simp at hr
          cases hchk : cfg.checkSessionState with
          | none =>
            have hsr : processStim cfg sid s Stimulus.timeout
                = { s with waits := s.waits ++ [cfg.idle_timeout_s] } := by
              rw [hstep]
              simp [stepRun, hr, hchk]
            rw [hsr] at hRs hbs ⊢
            obtain ⟨tail, h1, h2⟩ := ih _ hRs hbs
            refine ⟨tail, ?_, fun _ => h2 hchk⟩
            rw [h1, List.take_succ_cons, keptDeliveries]
          | some f =>
            cases hf : f s.nCalls with
            | error e =>
              have hsr : processStim cfg sid s Stimulus.timeout
                  = { s with
                      waits := s.waits ++ [cfg.idle_timeout_s],
                      nCalls := s.nCalls + 1 } := by
                rw [hstep]
                simp [stepRun, hr, hchk, hf]
              rw [hsr] at hRs hbs ⊢
              obtain ⟨tail, h1, h2⟩ := ih _ hRs hbs
              refine ⟨tail, ?_, fun hN => Option.noConfusion hN⟩
              rw [h1, List.take_succ_cons, keptDeliveries]
            | ok stOpt =>
              cases stOpt with
              | none =>
                have hsr : processStim cfg sid s Stimulus.timeout
                    = { s with
                        waits := s.waits ++ [cfg.idle_timeout_s],
                        nCalls := s.nCalls + 1 } := by
                  rw [hstep]
                  simp [stepRun, hr, hchk, hf]
                rw [hsr] at hRs hbs ⊢
                obtain ⟨tail, h1, h2⟩ := ih _ hRs hbs
                refine ⟨tail, ?_, fun hN => Option.noConfusion hN⟩
                rw [h1, List.take_succ_cons, keptDeliveries]
              | some st =>
                by_cases ht : st ∈ TERMINAL_STATES
                · have hsr : processStim cfg sid s Stimulus.timeout
                      = { s with
                          waits := s.waits ++ [cfg.idle_timeout_s], nCalls := s.nCalls + 1,
                          yielded := s.yielded ++ [some (synthEvent sid st)],
                          exit := ExitCause.queryTerminal } := by
                    rw [hstep]
                    simp [stepRun, hr, hchk, hf, ht]
                  rw [hsr]
                  rw [runTrace_frozen cfg sid _ rest (by simp)]
                  have hpz : processedGo cfg sid
                      ({ s with
                         waits := s.waits ++ [cfg.idle_timeout_s], nCalls := s.nCalls + 1,
                         yielded := s.yielded ++ [some (synthEvent sid st)],
                         exit := ExitCause.queryTerminal } : Acc) rest = 0 := by
                    cases rest with
                    | nil => rfl
                    | cons a b => simp [processedGo]
                  rw [hpz, List.take_succ_cons, keptDeliveries]
                  exact ⟨[some (synthEvent sid st)], by simp [keptDeliveries],
                    fun hN => Option.noConfusion hN⟩
                · have hsr : processStim cfg sid s Stimulus.timeout
                      = { s with
                          waits := s.waits ++ [cfg.idle_timeout_s],
                          nCalls := s.nCalls + 1 } := by
                    rw [hstep]
                    simp [stepRun, hr, hchk, hf, ht]
                  rw [hsr] at hRs hbs ⊢
                  obtain ⟨tail, h1, h2⟩ := ih _ hRs hbs
                  refine ⟨tail, ?_, fun hN => Option.noConfusion hN⟩
                  rw [h1, List.take_succ_cons, keptDeliveries]
    · rw [runTrace, processStim_frozen cfg sid s stim hex, runTrace_frozen cfg sid s rest hex]
      have hpz : processedGo cfg sid s (stim :: rest) = 0 := by
        simp [processedGo, hex]
      rw [hpz]
      exact ⟨[], by simp [keptDeliveries], fun _ => rfl⟩

theorem precheckResult_exit (sid st : String) (budget : Option Nat) :
    (precheckResult sid st budget).exit ≠ ExitCause.running := by
  by_cases hbz : budget = some 0 <;> simp [precheckResult, hbz]

/-- Any pre-phase return of the pre-check is a `precheckResult`. -/
theorem precheckPhase_pre (cfg : Config) (sid : String) (skip : Bool) (budget : Option Nat)
    (r : ListenResult) (h : precheckPhase cfg sid skip budget = Phase.pre r) :
    ∃ st, st ∈ TERMINAL_STATES ∧ r = precheckResult sid st budget := by
  cases hsk : skip with
  | true =>
    rw [hsk] at h
    simp [precheckPhase] at h
  | false =>
    rw [hsk] at h
    cases hchk : cfg.checkSessionState with
    | none =>
      simp [precheckPhase, hchk] at h
    | some f =>
      cases hf : f 0 with
      | error e =>
        simp [precheckPhase, hchk, hf] at h
      | ok stOpt =>
        cases stOpt with
        | none =>
          simp [precheckPhase, hchk, hf] at h
        | some st =>
          by_cases ht : st ∈ TERMINAL_STATES
          · refine ⟨st, ht, ?_⟩
            simp [precheckPhase, hchk, hf, ht] at h
            exact h.symm
          · simp [precheckPhase, hchk, hf, ht] at h

theorem runTrace_budget_none (cfg : Config) (sid : String) (t : List Stimulus) :
    ∀ s : Acc, Ready s → s.budget = Option.none →
      (runTrace cfg sid s t).budget = Option.none := by
  induction t with
  | nil => exact fun s _ hb => hb
  | cons stim rest ih =>
    intro s hR hb
    rw [runTrace]
    by_cases hex : s.exit = ExitCause.running
    · obtain ⟨hq, hd⟩ := hR hex
      apply ih _ (processStim_ready cfg sid s stim hR)
      rw [processStim_run_none cfg sid s stim hex hq hd hb, stepRun_budget]
      exact hb
    · rw [processStim_frozen cfg sid s stim hex]
      exact ih s hR hb

theorem drainGo_good (sid : String) (q : List (Option ChatEvent)) (s : Acc)
    (hy : GoodYield sid s.yielded) (hq : GoodQueue sid q) :
    GoodYield sid (drainGo q s).yielded ∧ GoodQueue sid (drainGo q s).queue := by
  induction q generalizing s with
  | nil =>
    rw [drainGo]
    exact ⟨hy, fun e he => absurd he (by simp)⟩
  | cons x rest ih =>
    cases x with
    | none =>
      rw [drainGo]
      exact ih s hy fun e he => hq e (by simp [he])
    | some e =>
      rw [drainGo]
      cases hbq : s.budget with
      | none =>
        apply ih
        · intro x hx
          rcases List.mem_append.mp hx with hx1 | hx2
          · exact hy x hx1
          · simp at hx2
            exact ⟨e, hx2, hq e (by simp)⟩
        · exact fun a ha => hq a (by simp [ha])
      | some n =>
        cases n with
        | zero =>
          refine ⟨hy, fun a ha => hq a ?_⟩
          simpa using ha
        | succ m =>
          apply ih
          · intro x hx
            rcases List.mem_append.mp hx with hx1 | hx2
            · exact hy x hx1
            · simp at hx2
              exact ⟨e, hx2, hq e (by simp)⟩
          · exact fun a ha => hq a (by simp [ha])

theorem consumeGo_good (sid : String) (q : List (Option ChatEvent)) (s : Acc)
    (hy : GoodYield sid s.yielded) (hq : GoodQueue sid q) :
    GoodYield sid (consumeGo q s).yielded ∧ GoodQueue sid (consumeGo q s).queue := by
  induction q generalizing s with
  | nil =>
    rw [consumeGo]
    by_cases hdn : s.done = true
    · rw [if_pos hdn]
      exact drainGo_good sid [] _ hy (fun e he => absurd he (by simp))
    · simp at hdn
      rw [if_neg (by simp [hdn])]
      exact ⟨hy, fun e he => absurd he (by simp)⟩
  | cons x rest ih =>
    cases x with
    | none =>
      rw [consumeGo]
      by_cases hdn : s.done = true
      · rw [if_pos hdn]
        exact drainGo_good sid _ _ hy hq
      · simp at hdn
        rw [if_neg (by simp [hdn])]
        exact drainGo_good sid _ _ hy fun e he => hq e (by simp [he])
    | some e =>
      rw [consumeGo]
      by_cases hdn : s.done = true
      · rw [if_pos hdn]
        exact drainGo_good sid _ _ hy hq
      · simp at hdn
        rw [if_neg (by simp [hdn])]
        cases hbq : s.budget with
        | none =>
          apply ih
          · intro x hx
            rcases List.mem_append.mp hx with hx1 | hx2
            · exact hy x hx1
            · simp at hx2
              exact ⟨e, hx2, hq e (by simp)⟩
          · exact fun a ha => hq a (by simp [ha])
        | some n =>
          cases n with
          | zero =>
            refine ⟨hy, fun a ha => hq a ?_⟩
            simpa using ha
          | succ m =>
            apply ih
            · intro x hx
              rcases List.mem_append.mp hx with hx1 | hx2
              · exact hy x hx1
              · simp at hx2
                exact ⟨e, hx2, hq e (by simp)⟩
            · exact fun a ha => hq a (by simp [ha])

theorem handler_good (sid : String) (ev : EvType) (raw : Raw) (s : Acc)
    (hq : GoodQueue sid s.queue) : GoodQueue sid (handler sid ev raw s).queue := by
  rw [handler_eq]
  by_cases hm : sessionMismatch sid raw
  · rw [if_pos hm]
    exact hq
  · rw [if_neg hm]
    intro e he
    simp only [List.append_assoc, List.mem_append] at he
    rcases he with h1 | h3 | h4
    · exact hq e h1
    · simp at h3
      rw [h3]
      rfl
    · by_cases hstop : handlerStop s.received ev raw = true
      · rw [hstop] at h4
        simp at h4
      · simp only [hstop] at h4
        simp at h4

theorem handler_yielded (sid : String) (ev : EvType) (raw : Raw) (s : Acc) :
    (handler sid ev raw s).yielded = s.yielded := by
  rw [handler_eq]
  by_cases hm : sessionMismatch sid raw <;> simp [hm]

theorem processStim_good (cfg : Config) (sid : String) (s : Acc) (stim : Stimulus)
    (hy : GoodYield sid s.yielded) (hq : GoodQueue sid s.queue) :
    GoodYield sid (processStim cfg sid s stim).yielded ∧
      GoodQueue sid (processStim cfg sid s stim).queue := by
  by_cases hex : s.exit = ExitCause.running
  · cases stim with
    | deliver ev raw =>
      have hP : processStim cfg sid s (Stimulus.deliver ev raw)
          = consumeGo (handler sid ev raw s).queue { handler sid ev raw s with queue := [] } := by
        simp [processStim, hex, consumeLoop]
      rw [hP]
      apply consumeGo_good
      · intro x hx
        exact hy x (by rwa [show ({ handler sid ev raw s with queue := [] } : Acc).yielded
          = s.yielded from handler_yielded sid ev raw s] at hx)
      · exact handler_good sid ev raw s hq
    | timeout =>
      by_cases hr : s.received = true
      · have hP : processStim cfg sid s Stimulus.timeout
            = drainGo s.queue
              { s with
                waits := s.waits ++ [cfg.response_idle_timeout_s],
                queue := [], exit := ExitCause.idleExit } := by
          simp [processStim, hex, hr]
        rw [hP]
        exact drainGo_good sid _ _ hy hq
      · simp at hr
        cases hchk : cfg.checkSessionState with
        | none =>
          have hP : processStim cfg sid s Stimulus.timeout
              = { s with waits := s.waits ++ [cfg.idle_timeout_s] } := by
            simp [processStim, hex, hr, hchk]
          rw [hP]
          exact ⟨hy, hq⟩
        | some f =>
          cases hf : f s.nCalls with
          | error e =>
            have hP : processStim cfg sid s Stimulus.timeout
                = { s with
                    waits := s.waits ++ [cfg.idle_timeout_s],
                    nCalls := s.nCalls + 1 } := by
              simp [processStim, hex, hr, hchk, hf]
            rw [hP]
            exact ⟨hy, hq⟩
          | ok stOpt =>
            cases stOpt with
            | none =>
              have hP : processStim cfg sid s Stimulus.timeout
                  = { s with
                      waits := s.waits ++ [cfg.idle_timeout_s],
                      nCalls := s.nCalls + 1 } := by
                simp [processStim, hex, hr, hchk, hf]
              rw [hP]
              exact ⟨hy, hq⟩
            | some st =>
              by_cases ht : st ∈ TERMINAL_STATES
              · cases hbq : s.budget with
                | none =>
                  have hP : processStim cfg sid s Stimulus.timeout
                      = drainGo s.queue
                        { s with
                          waits := s.waits ++ [cfg.idle_timeout_s],
                          nCalls := s.nCalls + 1,
                          yielded := s.yielded ++ [some (synthEvent sid st)],
                          queue := [], exit := ExitCause.queryTerminal } := by
                    simp [processStim, hex, hr, hchk, hf, ht, hbq]
                  rw [hP]
                  apply drainGo_good sid _ _ _ hq
                  intro x hx
                  rcases List.mem_append.mp hx with h1 | h2
                  · exact hy x h1
                  · simp at h2
                    exact ⟨synthEvent sid st, h2, rfl⟩
                | some n =>
                  cases n with
                  | zero =>
                    have hP : processStim cfg sid s Stimulus.timeout
                        = { s with
                            waits := s.waits ++ [cfg.idle_timeout_s],
                            nCalls := s.nCalls + 1, exit := ExitCause.cancelled } := by
                      simp [processStim, hex, hr, hchk, hf, ht, hbq]
                    rw [hP]
                    exact ⟨hy, hq⟩
                  | succ m =>
                    have hP : processStim cfg sid s Stimulus.timeout
                        = drainGo s.queue
                          { s with
                            waits := s.waits ++ [cfg.idle_timeout_s],
                            nCalls := s.nCalls + 1,
                            yielded := s.yielded ++ [some (synthEvent sid st)],
                            budget := some m, queue := [], exit := ExitCause.queryTerminal } := by
                      simp [processStim, hex, hr, hchk, hf, ht, hbq]
                    rw [hP]
                    apply drainGo_good sid _ _ _ hq
                    intro x hx
                    rcases List.mem_append.mp hx with h1 | h2
                    · exact hy x h1
                    · simp at h2
                      exact ⟨synthEvent sid st, h2, rfl⟩
              · have hP : processStim cfg sid s Stimulus.timeout
                    = { s with
                        waits := s.waits ++ [cfg.idle_timeout_s],
                        nCalls := s.nCalls + 1 } := by
                  simp [processStim, hex, hr, hchk, hf, ht]
                rw [hP]
                exact ⟨hy, hq⟩
  · rw [processStim_frozen cfg sid s stim hex]
    exact ⟨hy, hq⟩

theorem runTrace_good (cfg : Config) (sid : String) (t : List Stimulus) :
    ∀ s : Acc, GoodYield sid s.yielded → GoodQueue sid s.queue →
      GoodYield sid (runTrace cfg sid s t).yielded := by
  induction t with
  | nil => exact fun s hy _ => hy
  | cons stim rest ih =>
    intro s hy hq
    rw [runTrace]
    obtain ⟨hy2, hq2⟩ := processStim_good cfg sid s stim hy hq
    exact ih _ hy2 hq2

/-- Every value an entire listen call yields is a real event (never the
stop sentinel) carrying the requested session id. -/
theorem listen_goodYield (cfg : Config) (sid : String) (skip : Bool)
    (trace : List Stimulus) (budget : Option Nat) :
    GoodYield sid (listen cfg sid skip trace budget).yielded := by
  cases hph : precheckPhase cfg sid skip budget with
  | pre r =>
    obtain ⟨st, _, hr⟩ := precheckPhase_pre cfg sid skip budget r hph
    rw [listen, hph]
    rw [hr]
    by_cases hbz : budget = some 0
    · simp [precheckResult, hbz, GoodYield]
    · simp only [precheckResult, hbz, if_false]
      intro x hx
      simp at hx
      exact ⟨synthEvent sid st, hx, rfl⟩
  | active n0 =>
    simp only [listen, hph, listenActive, finishActive]
    apply runTrace_good cfg sid trace (initAcc budget n0)
    · intro x hx
      simp [initAcc] at hx
    · intro e he
      simp [initAcc] at he

/-- A mismatched-session delivery leaves the whole listener state untouched:
the observer returns before any enqueue or flag inspection, and the consumer
finds its queue as empty as before. -/
theorem processStim_mismatch (cfg : Config) (sid : String) (s : Acc) (ev : EvType) (raw : Raw)
    (hR : Ready s) (hm : sessionMismatch sid raw = true) :
    processStim cfg sid s (Stimulus.deliver ev raw) = s := by
  by_cases hex : s.exit = ExitCause.running
  · obtain ⟨hq, hd⟩ := hR hex
    have h1 : handler sid ev raw s = s := by rw [handler_eq, if_pos hm]
    have h2 : processStim cfg sid s (Stimulus.deliver ev raw)
        = consumeGo s.queue { s with queue := [] } := by
      simp [processStim, hex, h1, consumeLoop]
    rw [h2, hq, consumeGo, if_neg (by simp [hd])]
    rw [← hq]
  · exact processStim_frozen cfg sid s (Stimulus.deliver ev raw) hex

theorem runTrace_dropMismatched (cfg : Config) (sid : String) (t : List Stimulus) :
    ∀ s : Acc, Ready s →
      runTrace cfg sid s t = runTrace cfg sid s (dropMismatched sid t) := by
  induction t with
  | nil => exact fun s _ => rfl
  | cons stim rest ih =>
    intro s hR
    cases stim with
    | deliver ev raw =>
      by_cases hm : sessionMismatch sid raw = true
      · have hdrop : dropMismatched sid (Stimulus.deliver ev raw :: rest)
            = dropMismatched sid rest := by
          simp [dropMismatched, hm]
        rw [hdrop, runTrace, processStim_mismatch cfg sid s ev raw hR hm]
        exact ih s hR
      · simp at hm
        have hdrop : dropMismatched sid (Stimulus.deliver ev raw :: rest)
            = Stimulus.deliver ev raw :: dropMismatched sid rest := by
          simp [dropMismatched, hm]
        rw [hdrop, runTrace, runTrace]
        exact ih _ (processStim_ready cfg sid s (Stimulus.deliver ev raw) hR)
    | timeout =>
      have hdrop : dropMismatched sid (Stimulus.timeout :: rest)
          = Stimulus.timeout :: dropMismatched sid rest := by
        simp [dropMismatched]
      rw [hdrop, runTrace, runTrace]
      exact ih _ (processStim_ready cfg sid s Stimulus.timeout hR)

/-- With no state collaborator configured, the pre-check never fires. -/
theorem precheckPhase_noChecker (cfg : Config) (sid : String) (skip : Bool) (budget : Option Nat)
    (h : cfg.checkSessionState = Option.none) :
    precheckPhase cfg sid skip budget = Phase.active 0 := by
  cases hsk : skip with
  | true => simp [precheckPhase]
  | false => simp [precheckPhase, h]

/-- Appending one delivery that passes the session filter to a trace on
which the listen call is still running: the call's exit is then decided by
the observer's stop condition evaluated at the current substantive flag. -/
theorem listen_snoc_deliver (cfg : Config) (sid : String) (skip : Bool) (t : List Stimulus)
    (ev : EvType) (raw : Raw)
    (hex : (listen cfg sid skip t Option.none).exit = ExitCause.running)
    (hm : sessionMismatch sid raw = false) :
    (listen cfg sid skip (t ++ [Stimulus.deliver ev raw]) Option.none).exit
      = (if handlerStop (listen cfg sid skip t Option.none).received ev raw
         then ExitCause.sentinel else ExitCause.running) := by
  cases hph : precheckPhase cfg sid skip Option.none with
  | pre r =>
    obtain ⟨st, _, hr⟩ := precheckPhase_pre cfg sid skip Option.none r hph
    rw [listen, hph] at hex
    exact absurd hex (hr ▸ precheckResult_exit sid st Option.none)
  | active n0 =>
    have hl1 : listen cfg sid skip t Option.none
        = finishActive (runTrace cfg sid (initAcc Option.none n0) t) := by
      simp [listen, hph, listenActive]
    have hR : Ready (runTrace cfg sid (initAcc Option.none n0) t) :=
      runTrace_ready cfg sid _ t (initAcc_ready Option.none n0)
    have hb : (runTrace cfg sid (initAcc Option.none n0) t).budget = Option.none :=
      runTrace_budget_none cfg sid t _ (initAcc_ready Option.none n0) rfl
    have hax : (runTrace cfg sid (initAcc Option.none n0) t).exit = ExitCause.running := by
      rw [hl1] at hex
      exact hex
    obtain ⟨hq, hd⟩ := hR hax
    have hl2 : listen cfg sid skip (t ++ [Stimulus.deliver ev raw]) Option.none
        = finishActive (processStim cfg sid (runTrace cfg sid (initAcc Option.none n0) t)
            (Stimulus.deliver ev raw)) := by
      simp [listen, hph, listenActive, runTrace_append, runTrace]
    rw [hl2, processStim_run_none cfg sid _ _ hax hq hd hb]
    have hst : stepRun cfg sid (runTrace cfg sid (initAcc Option.none n0) t)
        (Stimulus.deliver ev raw)
        = { runTrace cfg sid (initAcc Option.none n0) t with
            yielded := (runTrace cfg sid (initAcc Option.none n0) t).yielded
              ++ [some (constructEvent sid ev raw)],
            received := (runTrace cfg sid (initAcc Option.none n0) t).received
              || SUBSTANTIVE_EVENTS.contains ev,
            done := handlerStop (runTrace cfg sid (initAcc Option.none n0) t).received ev raw,
            exit := (if handlerStop (runTrace cfg sid (initAcc Option.none n0) t).received ev raw
                     then ExitCause.sentinel else ExitCause.running) } := by
      simp [stepRun, hm]
    rw [hst, hl1]
    by_cases hstop : handlerStop (runTrace cfg sid (initAcc Option.none n0) t).received ev raw
        = true <;>
      simp [finishActive, hstop]

/-- The events surviving the stale filter are among the events listened. -/
theorem filterFresh_sub (cutoff : Int) :
    ∀ l l2 : List ChatEvent, filterFresh cutoff l = Except.ok l2 → ∀ e ∈ l2, e ∈ l := by
  intro l
  induction l with
  | nil =>
    intro l2 h
    rw [filterFresh] at h
    cases h
    simp
  | cons a rest ih =>
    intro l2 h
    rw [filterFresh] at h
    cases hs : is_stale_event a cutoff with
    | error ex => rw [hs] at h; cases h
    | ok b =>
      rw [hs] at h
      cases b with
      | true =>
        intro e he
        exact List.mem_cons_of_mem a (ih l2 h e he)
      | false =>
        cases hrest : filterFresh cutoff rest with
        | error ex => rw [hrest] at h; cases h
        | ok l3 =>
          rw [hrest] at h
          cases h
          intro e he
          rcases List.mem_cons.mp he with h1 | h2
          · simp [h1]
          · exact List.mem_cons_of_mem a (ih l3 hrest e h2)

/-!
The claims.
-/

/-- Claim C1 (counterexample): with `skipPrecheck = true`, no session-state
collaborator, no inbound events and a 5 s idle timeout, the listen loop does
NOT terminate after one idle-timeout cycle: it is still listening (and yields
nothing) after one — and still after five — timeout expiries, contradicting
the claim that the loop exits with the empty sequence after a single
timeout. -/
theorem claim1_counterexample :
    (listen cfgNone "s1" true [Stimulus.timeout] Option.none).exit = ExitCause.running
    ∧ (listen cfgNone "s1" true [Stimulus.timeout] Option.none).yielded = []
    ∧ (listen cfgNone "s1" true (List.replicate 5 Stimulus.timeout) Option.none).exit
        = ExitCause.running :=
  ⟨rfl, rfl, rfl⟩

/-- Claim C1 (amended): for a listen call with `skipPrecheck = true`, no
session-state collaborator and no inbound event ever delivered, each
idle-timeout expiry waits the full idle timeout and then simply continues
waiting: after any number of such cycles the loop has yielded nothing, the
observer is still registered, and the call has not terminated. -/
theorem claim1_idle_timeout_keeps_waiting (cfg : Config) (sid : String) (n : Nat)
    (h : cfg.checkSessionState = Option.none) :
    listen cfg sid true (List.replicate n Stimulus.timeout) Option.none
      = { yielded := [], waits := List.replicate n cfg.idle_timeout_s,
          exit := ExitCause.running, registered := true, removedCount := 0,
          received := false } := by
  have hstep : ∀ s : Acc, s.exit = ExitCause.running → s.received = false →
      processStim cfg sid s Stimulus.timeout
        = { s with waits := s.waits ++ [cfg.idle_timeout_s] } := by
    intro s hex hr
    simp [processStim, hex, hr, h]
  have hrun : ∀ m : Nat, ∀ s : Acc, s.exit = ExitCause.running → s.received = false →
      runTrace cfg sid s (List.replicate m Stimulus.timeout)
        = { s with waits := s.waits ++ List.replicate m cfg.idle_timeout_s } := by
    intro m
    induction m with
    | zero =>
      intro s _ _
      simp [runTrace]
    | succ k ihk =>
      intro s hex hr
      rw [List.replicate_succ, runTrace, hstep s hex hr,
        ihk { s with waits := s.waits ++ [cfg.idle_timeout_s] } hex hr]
      simp [List.replicate_succ]
  have hph : precheckPhase cfg sid true Option.none = Phase.active 0 := by
    simp [precheckPhase]
  simp only [listen, hph, listenActive]
  rw [hrun n (initAcc Option.none 0) rfl rfl]
  simp [finishActive, initAcc]

/-- Claim C1 (witness): the amended claim evaluated at a concrete
configuration and two timeout cycles. -/
theorem claim1_witness :
    listen cfgNone "w1" true (List.replicate 2 Stimulus.timeout) Option.none
      = { yielded := [], waits := List.replicate 2 cfgNone.idle_timeout_s,
          exit := ExitCause.running, registered := true, removedCount := 0,
          received := false } :=
  claim1_idle_timeout_keeps_waiting cfgNone "w1" 2 rfl

/-- Claim C2 (code bug): on an event whose metadata carries a truthy
non-string timestamp value (here the integer 123), `_is_stale_event` raises
`AttributeError` from `ts_str.replace` — the `except (ValueError, TypeError)`
clause does not cover it — instead of returning false as the specification
requires of malformed timing data, for every cutoff instant. -/
theorem claim2_nonstring_timestamp_raises :
    ∀ cutoff : Int,
      is_stale_event staleIntEvent cutoff = Except.error PyExc.attributeError :=
  fun _ => rfl

/-- Claim C3 (counterexample): an inbound envelope whose `session_id` is the
empty string — present and different from the requested session `"s1"` — is
NOT discarded: its event is yielded and, being of a substantive type, it
sets the substantive-response flag, contradicting the claim that any
differing envelope session id is discarded before enqueue or flag
inspection. -/
theorem claim3_counterexample :
    ("" : String) ≠ "s1"
    ∧ realYielded (listen cfgNone "s1" true
        [Stimulus.deliver EvType.SESSION_TEXT rawEmptySid] Option.none)
        = [constructEvent "s1" EvType.SESSION_TEXT rawEmptySid]
    ∧ (listen cfgNone "s1" true
        [Stimulus.deliver EvType.SESSION_TEXT rawEmptySid] Option.none).received = true :=
  ⟨by decide, rfl, rfl⟩

/-- Claim C3 (amended): an inbound raw event whose envelope session id is
present, non-empty and differs from the requested session id is discarded by
the observer before any enqueue or flag inspection — the callback returns
the state unchanged — and consequently a whole listen call behaves exactly
as if such deliveries had never happened (an absent or empty-string envelope
session id, being falsy, is treated as matching). -/
theorem claim3_foreign_session_discarded (cfg : Config) (sid : String) (skip : Bool)
    (trace : List Stimulus) (budget : Option Nat) :
    (∀ (ev : EvType) (raw : Raw) (s : Acc),
      sessionMismatch sid raw = true → handler sid ev raw s = s)
    ∧ listen cfg sid skip trace budget
        = listen cfg sid skip (dropMismatched sid trace) budget := by
  constructor
  · intro ev raw s hm
    rw [handler_eq, if_pos hm]
  · cases hph : precheckPhase cfg sid skip budget with
    | pre r => simp [listen, hph]
    | active n0 =>
      simp only [listen, hph, listenActive]
      rw [runTrace_dropMismatched cfg sid trace (initAcc budget n0) (initAcc_ready budget n0)]

/-- Claim C3 (witness): the amended claim evaluated at a concrete foreign
delivery for session `"s2"` while listening on `"s1"`. -/
theorem claim3_witness :
    handler "s1" EvType.SESSION_TEXT (rawText "s2") (initAcc Option.none 0)
      = initAcc Option.none 0
    ∧ listen cfgNone "s1" true
        [Stimulus.deliver EvType.SESSION_TEXT (rawText "s2")] Option.none
      = listen cfgNone "s1" true
          (dropMismatched "s1" [Stimulus.deliver EvType.SESSION_TEXT (rawText "s2")])
          Option.none :=
  ⟨(claim3_foreign_session_discarded cfgNone "s1" true [] Option.none).1
      EvType.SESSION_TEXT (rawText "s2") (initAcc Option.none 0) rfl,
   (claim3_foreign_session_discarded cfgNone "s1" true
      [Stimulus.deliver EvType.SESSION_TEXT (rawText "s2")] Option.none).2⟩

/-- Claim C4: a `waiting_input` input-state event marks `done` and enqueues
the stop sentinel only if a substantive response was already received: with
the flag unset, the observer merely enqueues the constructed event (no
sentinel, flags untouched), and appending such a delivery to any listen
trace on which no substantive event has arrived leaves the call's exit
status unchanged — it never terminates the loop. -/
theorem claim4_waiting_input_needs_substance (sid : String) :
    (∀ (raw : Raw) (s : Acc), s.received = false →
      handler sid EvType.SESSION_INPUT_STATE raw s
        = { s with
            queue := s.queue ++
              (if sessionMismatch sid raw then []
               else [some (constructEvent sid EvType.SESSION_INPUT_STATE raw)]) })
    ∧ (∀ (cfg : Config) (skip : Bool) (trace : List Stimulus) (raw : Raw),
        (listen cfg sid skip trace Option.none).received = false →
        (listen cfg sid skip
            (trace ++ [Stimulus.deliver EvType.SESSION_INPUT_STATE raw]) Option.none).exit
          = (listen cfg sid skip trace Option.none).exit) := by
  constructor
  · intro raw s hr
    rw [handler_eq]
    by_cases hm : sessionMismatch sid raw
    · simp [hm]
    · have hstop : handlerStop s.received EvType.SESSION_INPUT_STATE raw = false := by
        simp [handlerStop, hr]
      simp [hm, hstop, SUBSTANTIVE_EVENTS]
  · intro cfg skip trace raw hr
    cases hph : precheckPhase cfg sid skip Option.none with
    | pre r => simp [listen, hph]
    | active n0 =>
      have hl1 : listen cfg sid skip trace Option.none
          = finishActive (runTrace cfg sid (initAcc Option.none n0) trace) := by
        simp [listen, hph, listenActive]
      by_cases hex : (listen cfg sid skip trace Option.none).exit = ExitCause.running
      · have har : (runTrace cfg sid (initAcc Option.none n0) trace).received = false := by
          rw [hl1] at hr
          exact hr
        have hstop : handlerStop (listen cfg sid skip trace Option.none).received
            EvType.SESSION_INPUT_STATE raw = false := by
          simp [handlerStop, hr]
        by_cases hm : sessionMismatch sid raw = true
        · have hl2 : listen cfg sid skip
              (trace ++ [Stimulus.deliver EvType.SESSION_INPUT_STATE raw]) Option.none
              = finishActive (processStim cfg sid (runTrace cfg sid (initAcc Option.none n0) trace)
                  (Stimulus.deliver EvType.SESSION_INPUT_STATE raw)) := by
            simp [listen, hph, listenActive, runTrace_append, runTrace]
          rw [hl2, processStim_mismatch cfg sid _ _ raw
            (runTrace_ready cfg sid _ trace (initAcc_ready Option.none n0)) hm, ← hl1]
        · simp at hm
          rw [listen_snoc_deliver cfg sid skip trace EvType.SESSION_INPUT_STATE raw hex hm,
            hstop, hex]
          simp
      · have hfr : (runTrace cfg sid (initAcc Option.none n0) trace).exit
            ≠ ExitCause.running := by
          rw [hl1] at hex
          exact hex
        have hl2 : listen cfg sid skip
            (trace ++ [Stimulus.deliver EvType.SESSION_INPUT_STATE raw]) Option.none
            = finishActive (processStim cfg sid (runTrace cfg sid (initAcc Option.none n0) trace)
                (Stimulus.deliver EvType.SESSION_INPUT_STATE raw)) := by
          simp [listen, hph, listenActive, runTrace_append, runTrace]
        rw [hl2, processStim_frozen cfg sid _ _ hfr, ← hl1]

/-- Claim C4 (witness): a `waiting_input` delivered as the very first event
of a listen call leaves the call still listening. -/
theorem claim4_witness :
    (listen cfgNone "s1" true
        ([] ++ [Stimulus.deliver EvType.SESSION_INPUT_STATE (rawWaiting "s1")])
        Option.none).exit
      = (listen cfgNone "s1" true [] Option.none).exit :=
  (claim4_waiting_input_needs_substance "s1").2 cfgNone true [] (rawWaiting "s1") rfl

/-- Claim C5: the stop sentinel is never yielded to the consumer on any
path, drain phase included (every yielded entry is a real event); and both
stop triggers terminate the generator: delivering a terminal session-state
event while the call is running ends it via the sentinel path, as does a
`waiting_input` input-state event delivered after a substantive response. -/
theorem claim5_stop_triggers_equivalent (cfg : Config) (sid : String) (skip : Bool) :
    (∀ (trace : List Stimulus) (budget : Option Nat),
      ∀ x ∈ (listen cfg sid skip trace budget).yielded, x ≠ Option.none)
    ∧ (∀ (trace : List Stimulus) (raw : Raw),
        (listen cfg sid skip trace Option.none).exit = ExitCause.running →
        sessionMismatch sid raw = false →
        terminalStateRaw raw = true →
        (listen cfg sid skip
            (trace ++ [Stimulus.deliver EvType.SESSION_STATE raw]) Option.none).exit
          = ExitCause.sentinel)
    ∧ (∀ (trace : List Stimulus) (raw : Raw),
        (listen cfg sid skip trace Option.none).exit = ExitCause.running →
        (listen cfg sid skip trace Option.none).received = true →
        sessionMismatch sid raw = false →
        waitingInputRaw raw = true →
        (listen cfg sid skip
            (trace ++ [Stimulus.deliver EvType.SESSION_INPUT_STATE raw]) Option.none).exit
          = ExitCause.sentinel) := by
  refine ⟨?_, ?_, ?_⟩
  · intro trace budget x hx
    obtain ⟨e, he, _⟩ := listen_goodYield cfg sid skip trace budget x hx
    rw [he]
    simp
  · intro trace raw hex hm ht
    rw [listen_snoc_deliver cfg sid skip trace EvType.SESSION_STATE raw hex hm]
    have hstop : handlerStop (listen cfg sid skip trace Option.none).received
        EvType.SESSION_STATE raw = true := by
      simp [handlerStop, ht]
    rw [hstop]
    simp
  · intro trace raw hex hr hm hw
    rw [listen_snoc_deliver cfg sid skip trace EvType.SESSION_INPUT_STATE raw hex hm]
    have hstop : handlerStop (listen cfg sid skip trace Option.none).received
        EvType.SESSION_INPUT_STATE raw = true := by
      simp [handlerStop, hw, hr]
    rw [hstop]
    simp

/-- Claim C5 (witness): a terminal session-state event delivered to a fresh
listen call terminates it via the sentinel path. -/
theorem claim5_witness :
    (listen cfgNone "s1" true
        ([] ++ [Stimulus.deliver EvType.SESSION_STATE (rawTerminal "s1")]) Option.none).exit
      = ExitCause.sentinel :=
  (claim5_stop_triggers_equivalent cfgNone "s1" true).2.1 [] (rawTerminal "s1") rfl rfl rfl

/-- Claim C6: whenever a listen call registered the inbound observer and the
generator has exited — by completion, timeout, terminal stop, error, or
consumer cancellation — the deregistration handle has been invoked exactly
once; a call that returned during the pre-check never registered and never
deregistered. -/
theorem claim6_observer_released (cfg : Config) (sid : String) (skip : Bool)
    (trace : List Stimulus) (budget : Option Nat) :
    ((listen cfg sid skip trace budget).registered = true →
      (listen cfg sid skip trace budget).exit ≠ ExitCause.running →
      (listen cfg sid skip trace budget).removedCount = 1)
    ∧ ((listen cfg sid skip trace budget).registered = false →
      (listen cfg sid skip trace budget).removedCount = 0) := by
  cases hph : precheckPhase cfg sid skip budget with
  | pre r =>
    obtain ⟨st, _, hr⟩ := precheckPhase_pre cfg sid skip budget r hph
    rw [listen, hph, hr]
    by_cases hbz : budget = some 0 <;>
      · constructor
        · intro hreg
          simp [precheckResult, hbz] at hreg
        · intro _
          simp [precheckResult, hbz]
  | active n0 =>
    simp only [listen, hph, listenActive, finishActive]
    constructor
    · intro _ hne
      rw [if_neg hne]
    · intro hreg
      simp at hreg

/-- Claim C6 (witness): a consumer abandoning after the first of two
delivered events still sees the observer deregistered exactly once. -/
theorem claim6_witness :
    (listen cfgNone "s1" true
        [Stimulus.deliver EvType.SESSION_TEXT (rawText "s1"),
         Stimulus.deliver EvType.SESSION_TEXT (rawText "s1")] (some 1)).removedCount = 1 :=
  (claim6_observer_released cfgNone "s1" true
      [Stimulus.deliver EvType.SESSION_TEXT (rawText "s1"),
       Stimulus.deliver EvType.SESSION_TEXT (rawText "s1")] (some 1)).1 rfl (by decide)

/-- Claim C7: with the pre-check enabled, a configured state query, and the
query reporting a terminal state, the listen call yields exactly one
synthesized session-state event carrying that state and ends — the inbound
observer is never registered, so no observer-sourced events can appear. -/
theorem claim7_precheck_terminal (cfg : Config) (sid : String) (trace : List Stimulus)
    (f : Nat → Except Unit (Option String)) (st : String)
    (h1 : cfg.checkSessionState = some f) (h2 : f 0 = Except.ok (some st))
    (h3 : st ∈ TERMINAL_STATES) :
    listen cfg sid false trace Option.none
      = { yielded := [some (synthEvent sid st)], waits := [],
          exit := ExitCause.precheckTerminal, registered := false,
          removedCount := 0, received := false } := by
  have hph : precheckPhase cfg sid false Option.none
      = Phase.pre (precheckResult sid st Option.none) := by
    simp [precheckPhase, h1, h2, h3]
  rw [listen, hph]
  simp [precheckResult]

/-- Claim C7 (witness): the pre-check short-circuit evaluated at a concrete
always-finished collaborator, with a delivery waiting in the trace that is
never observed. -/
theorem claim7_witness :
    listen cfgTerm "s1" false
        [Stimulus.deliver EvType.SESSION_TEXT (rawText "s1")] Option.none
      = { yielded := [some (synthEvent "s1" "task_finished")], waits := [],
          exit := ExitCause.precheckTerminal, registered := false,
          removedCount := 0, received := false } :=
  claim7_precheck_terminal cfgTerm "s1"
    [Stimulus.deliver EvType.SESSION_TEXT (rawText "s1")]
    (fun _ => Except.ok (some "task_finished")) "task_finished" rfl rfl (by decide)

/-- Claim C8: a failing out-of-band session-state query is swallowed on both
paths: a pre-check failure makes `_listen` fall through to the active
receive loop (with the one query call consumed), and a failing re-poll on an
idle timeout merely records the waited duration and keeps the loop waiting —
in neither case does anything propagate to the consumer. -/
theorem claim8_query_failure_swallowed (cfg : Config) (sid : String)
    (f : Nat → Except Unit (Option String)) (hc : cfg.checkSessionState = some f) :
    (∀ (e : Unit) (trace : List Stimulus) (budget : Option Nat),
      f 0 = Except.error e →
      listen cfg sid false trace budget = listenActive cfg sid trace budget 1)
    ∧ (∀ (s : Acc) (e : Unit),
        s.exit = ExitCause.running → s.received = false →
        f s.nCalls = Except.error e →
        processStim cfg sid s Stimulus.timeout
          = { s with waits := s.waits ++ [cfg.idle_timeout_s], nCalls := s.nCalls + 1 }) := by
  constructor
  · intro e trace budget hf
    simp [listen, precheckPhase, hc, hf, listenActive]
  · intro s e hex hr hf
    simp [processStim, hex, hr, hc, hf]

/-- Claim C8 (witness): the always-failing collaborator falls through the
pre-check, and its failing re-poll keeps a fresh loop state waiting. -/
theorem claim8_witness :
    listen cfgErr "s1" false [Stimulus.timeout] Option.none
        = listenActive cfgErr "s1" [Stimulus.timeout] Option.none 1
    ∧ processStim cfgErr "s1" (initAcc Option.none 1) Stimulus.timeout
        = { initAcc Option.none 1 with
            waits := [cfgErr.idle_timeout_s], nCalls := 2 } :=
  ⟨(claim8_query_failure_swallowed cfgErr "s1" (fun _ => Except.error ()) rfl).1
      () [Stimulus.timeout] Option.none rfl,
   (claim8_query_failure_swallowed cfgErr "s1" (fun _ => Except.error ()) rfl).2
      (initAcc Option.none 1) () rfl rfl rfl⟩

/-- Claim C9: with a fully-consuming consumer, the events passing the
session filter are yielded in exactly the order the transport delivered
them — one event per kept delivery of the processed trace prefix, never
merged or reordered — as a prefix of the output in general, and as the
entire output when no state collaborator is configured (the only other
yields being a possible trailing synthesized terminal event). -/
theorem claim9_dispatch_order (cfg : Config) (sid : String) (skip : Bool)
    (trace : List Stimulus) :
    (∃ rest, realYielded (listen cfg sid skip trace Option.none)
        = keptDeliveries sid
            (trace.take (listenProcessed cfg sid skip trace Option.none)) ++ rest)
    ∧ (cfg.checkSessionState = Option.none →
        realYielded (listen cfg sid skip trace Option.none)
          = keptDeliveries sid
              (trace.take (listenProcessed cfg sid skip trace Option.none))) := by
  cases hph : precheckPhase cfg sid skip Option.none with
  | pre r =>
    have hp : listenProcessed cfg sid skip trace Option.none = 0 := by
      simp [listenProcessed, hph]
    constructor
    · exact ⟨realYielded (listen cfg sid skip trace Option.none), by
        rw [hp]
        simp [keptDeliveries]⟩
    · intro hN
      rw [precheckPhase_noChecker cfg sid skip Option.none hN] at hph
      exact Phase.noConfusion hph
  | active n0 =>
    have hp : listenProcessed cfg sid skip trace Option.none
        = processedGo cfg sid (initAcc Option.none n0) trace := by
      simp [listenProcessed, hph]
    have hl : listen cfg sid skip trace Option.none
        = finishActive (runTrace cfg sid (initAcc Option.none n0) trace) := by
      simp [listen, hph, listenActive]
    obtain ⟨tail, h1, h2⟩ := runTrace_structure cfg sid trace (initAcc Option.none n0)
      (initAcc_ready Option.none n0) rfl
    have hy : realYielded (listen cfg sid skip trace Option.none)
        = keptDeliveries sid
            (trace.take (listenProcessed cfg sid skip trace Option.none))
          ++ tail.filterMap id := by
      rw [hl, hp]
      simp only [realYielded, finishActive]
      rw [h1]
      simp [initAcc, List.filterMap_append]
    constructor
    · exact ⟨tail.filterMap id, hy⟩
    · intro hN
      rw [hy, h2 hN]
      simp

/-- Claim C9 (witness): two text fragments followed by a terminal event are
yielded as exactly three separate events in arrival order. -/
theorem claim9_witness :
    realYielded (listen cfgNone "s1" true
        [Stimulus.deliver EvType.SESSION_TEXT_PART (rawText "s1"),
         Stimulus.deliver EvType.SESSION_TEXT_PART (rawText "s1"),
         Stimulus.deliver EvType.SESSION_STATE (rawTerminal "s1")] Option.none)
      = keptDeliveries "s1"
          (List.take (listenProcessed cfgNone "s1" true
              [Stimulus.deliver EvType.SESSION_TEXT_PART (rawText "s1"),
               Stimulus.deliver EvType.SESSION_TEXT_PART (rawText "s1"),
               Stimulus.deliver EvType.SESSION_STATE (rawTerminal "s1")] Option.none)
            [Stimulus.deliver EvType.SESSION_TEXT_PART (rawText "s1"),
             Stimulus.deliver EvType.SESSION_TEXT_PART (rawText "s1"),
             Stimulus.deliver EvType.SESSION_STATE (rawTerminal "s1")]) :=
  (claim9_dispatch_order cfgNone "s1" true
    [Stimulus.deliver EvType.SESSION_TEXT_PART (rawText "s1"),
     Stimulus.deliver EvType.SESSION_TEXT_PART (rawText "s1"),
     Stimulus.deliver EvType.SESSION_STATE (rawTerminal "s1")]).2 rfl

/-- Claim C10: every event yielded by a listen call carries `session_id`
equal to the requested session id — the envelope's own session id is never
copied into the constructed event — and hence so does every event that
`chat` passes through its stale filter. -/
theorem claim10_session_id_rewritten (cfg : Config) (sid : String) (skip : Bool)
    (trace : List Stimulus) (budget : Option Nat) :
    (∀ e ∈ realYielded (listen cfg sid skip trace budget), e.session_id = sid)
    ∧ (∀ (cutoff : Int) (l : List ChatEvent),
        chatEvents cfg sid trace budget cutoff = Except.ok l →
        ∀ e ∈ l, e.session_id = sid) := by
  have h1 : ∀ e ∈ realYielded (listen cfg sid skip trace budget), e.session_id = sid := by
    intro e he
    simp only [realYielded, List.mem_filterMap, id] at he
    obtain ⟨x, hx, hxe⟩ := he
    obtain ⟨e2, he2, hs2⟩ := listen_goodYield cfg sid skip trace budget x hx
    rw [he2] at hxe
    cases hxe
    exact hs2
  refine ⟨h1, ?_⟩
  intro cutoff l hl e he
  have h2 : ∀ e ∈ realYielded (listen cfg sid true trace budget), e.session_id = sid := by
    intro e2 he2
    simp only [realYielded, List.mem_filterMap, id] at he2
    obtain ⟨x, hx, hxe⟩ := he2
    obtain ⟨e3, he3, hs3⟩ := listen_goodYield cfg sid true trace budget x hx
    rw [he3] at hxe
    cases hxe
    exact hs3
  exact h2 e (filterFresh_sub cutoff _ _ hl e he)

/-- Claim C10 (witness): the event constructed from a concrete envelope for
session `"s1"` carries `session_id = "s1"`. -/
theorem claim10_witness :
    (constructEvent "s1" EvType.SESSION_TEXT (rawText "s1")).session_id = "s1" :=
  (claim10_session_id_rewritten cfgNone "s1" true
      [Stimulus.deliver EvType.SESSION_TEXT (rawText "s1")] Option.none).1
    (constructEvent "s1" EvType.SESSION_TEXT (rawText "s1")) (List.Mem.head _)

end PineSpec
